import Mathlib

/-!
Verification of the KiCad via-stitching plugin (via_stitcher_v2.py and
via_stitcher_improved.py) against its specification.

Modelling conventions, used throughout:

* Board coordinates are KiCad integer nanometres; `Pos` models `pcbnew.VECTOR2I`.
* Python's floor division `//` on integers is `Int.fdiv`.
* `int(math.ceil(a / b))` for a positive divisor is the exact ceiling,
  rendered as `ceilDivInt`.
* The source compares Euclidean distances `math.sqrt(dsq) <= r` in floating
  point.  We compare exactly: for `r >= 0`, `sqrt dsq <= r` iff `dsq <= r*r`.
  Thresholds that the source builds from half-quantities (`via_size / 2`,
  `pad_size / 2`, `width / 2`) are kept in ℤ by scaling both sides of each
  comparison by 2: `sqrt dsq < m` iff `0 < 2m` and `4*dsq < (2m)^2`.
  Each such comparison is annotated at its definition site.
* The candidate generators' `randomize=True` branch perturbs points with a
  PRNG; no claim concerns it and only the `randomize=False` path is embedded.
-/

namespace ViaStitcher

/-- 2D integer point in board units (nanometres); models pcbnew.VECTOR2I. -/
@[ext]
structure Pos where
  x : Int
  y : Int
deriving DecidableEq, Repr

/-- Squared Euclidean distance between two points (the source computes
math.sqrt of exactly this quantity). -/
def distSq (a b : Pos) : Int :=
  (a.x - b.x) * (a.x - b.x) + (a.y - b.y) * (a.y - b.y)

/-- Ascending list of n consecutive integers starting at lo. -/
def intRangeAux : Int → Nat → List Int
  | _, 0 => []
  | lo, n + 1 => lo :: intRangeAux (lo + 1) n

/-- The inclusive integer range [lo, hi], as iterated by Python's
range(lo, hi+1); empty when hi < lo. -/
def intRange (lo hi : Int) : List Int := intRangeAux lo (hi - lo + 1).toNat

/-- Ceiling division for a positive divisor: int(math.ceil(a / b)). -/
def ceilDivInt (a b : Int) : Int := -(Int.fdiv (-a) b)

theorem mem_intRangeAux {n : Nat} {lo a : Int} :
    a ∈ intRangeAux lo n ↔ lo ≤ a ∧ a < lo + n := by
  induction n generalizing lo with
  | zero => simp [intRangeAux]
  | succ n ih =>
    simp only [intRangeAux, List.mem_cons, ih]
    push_cast
    omega

theorem mem_intRange {lo hi a : Int} : a ∈ intRange lo hi ↔ lo ≤ a ∧ a ≤ hi := by
  unfold intRange
  rw [mem_intRangeAux]
  rcases le_or_lt lo hi with h | h
  · have h3 : (((hi - lo + 1).toNat : Int)) = hi - lo + 1 :=
      Int.toNat_of_nonneg (by omega)
    rw [h3]
    omega
  · have h3 : (hi - lo + 1).toNat = 0 := Int.toNat_of_nonpos (by omega)
    rw [h3]
    push_cast
    omega

theorem ceilDivInt_mul_le {r g : Int} (hg : 0 < g) : r ≤ ceilDivInt r g * g := by
  have h1 : Int.fdiv (-r) g = (-r) / g := Int.fdiv_eq_ediv _ hg.le
  have h2 : (-r) / g * g ≤ -r := Int.ediv_mul_le _ (by omega)
  have h3 : ceilDivInt r g * g = -((-r) / g * g) := by
    simp only [ceilDivInt, h1]
    ring
  omega

/-- Key bucket lemma: integer points at distance at most r land in grid cells
at most ceil(r / g) apart (per axis), for a positive cell size g. -/
theorem fdiv_sub_fdiv_le {a b r g : Int} (hg : 0 < g) (hab : a - b ≤ r) :
    Int.fdiv a g - Int.fdiv b g ≤ ceilDivInt r g := by
  have ha : Int.fdiv a g = a / g := Int.fdiv_eq_ediv _ hg.le
  have hb : Int.fdiv b g = b / g := Int.fdiv_eq_ediv _ hg.le
  have hcg : r ≤ ceilDivInt r g * g := ceilDivInt_mul_le hg
  have h1 : a ≤ b + ceilDivInt r g * g := by omega
  have h2 : a / g ≤ (b + ceilDivInt r g * g) / g := Int.ediv_le_ediv hg h1
  have h3 : (b + ceilDivInt r g * g) / g = b / g + ceilDivInt r g :=
    Int.add_mul_ediv_right b _ (by omega)
  omega

/-- Entry of the via spatial index: (position, via identity).  The source
stores the pcbnew via object; only its identity matters here. -/
abbrev ViaEntry := Pos × Int

/-- SpatialIndex (via_stitcher_v2.py lines 59-102): grid-bucketed index of
vias.  The bucket dict {(gx,gy) ↦ entries} is represented by the insertion
list `entries`; a bucket's contents are the entries whose position falls in
that cell, in insertion order, exactly as built by repeated `add_via`. -/
structure SpatialIndex where
  grid_size : Int
  entries : List ViaEntry

/-- add_via: appends (pos, via) to the bucket of pos's cell. -/
def SpatialIndex.add_via (idx : SpatialIndex) (pos : Pos) (via : Int) :
    SpatialIndex :=
  { idx with entries := idx.entries ++ [(pos, via)] }

/-- get_nearby_vias (lines 81-102): scans the (2*grid_radius+1)^2 cells
around pos's cell, with grid_radius = int(math.ceil(radius / grid_size)),
and keeps stored entries whose Euclidean distance to pos is at most radius.
The float test `sqrt dsq <= radius` is rendered exactly as
`0 <= radius ∧ dsq <= radius*radius`. -/
def SpatialIndex.get_nearby_vias (idx : SpatialIndex) (pos : Pos)
    (radius : Int) : List ViaEntry :=
  let g := idx.grid_size
  let gx := Int.fdiv pos.x g
  let gy := Int.fdiv pos.y g
  let gr := ceilDivInt radius g
  (intRange (-gr) gr).flatMap fun dx =>
    (intRange (-gr) gr).flatMap fun dy =>
      (idx.entries.filter fun e =>
        Int.fdiv e.1.x g == gx + dx && Int.fdiv e.1.y g == gy + dy).filter
        fun e => decide (0 ≤ radius ∧ distSq pos e.1 ≤ radius * radius)

/-- Membership characterization of get_nearby_vias for a positive cell size:
an entry is returned iff it was inserted, the radius is nonnegative and the
entry lies within the query radius.  (Soundness is by the distance filter;
completeness is the bucket lemma: the scanned cell window always covers every
cell that can hold a point within the radius.) -/
theorem SpatialIndex.mem_get_nearby_vias {g : Int} (hg : 0 < g)
    (entries : List ViaEntry) (pos : Pos) (radius : Int) (e : ViaEntry) :
    e ∈ (SpatialIndex.mk g entries).get_nearby_vias pos radius ↔
      e ∈ entries ∧ 0 ≤ radius ∧ distSq pos e.1 ≤ radius * radius := by
  simp only [get_nearby_vias, List.mem_flatMap, List.mem_filter,
    mem_intRange, decide_eq_true_eq, Bool.and_eq_true, beq_iff_eq]
  constructor
  · rintro ⟨dx, hdx, dy, hdy, ⟨⟨he, hex, hey⟩, hcond⟩⟩
    exact ⟨he, hcond⟩
  · rintro ⟨he, hr, hd⟩
    refine ⟨Int.fdiv e.1.x g - Int.fdiv pos.x g, ?_,
      Int.fdiv e.1.y g - Int.fdiv pos.y g, ?_, ⟨⟨he, by omega, by omega⟩, ⟨hr, hd⟩⟩⟩
    · have hx2 : (pos.x - e.1.x) * (pos.x - e.1.x) ≤ radius * radius := by
        have hy2 : 0 ≤ (pos.y - e.1.y) * (pos.y - e.1.y) := mul_self_nonneg _
        simp only [distSq] at hd
        nlinarith
      have habs : -radius ≤ e.1.x - pos.x ∧ e.1.x - pos.x ≤ radius := by
        constructor <;> nlinarith
      constructor
      · have := fdiv_sub_fdiv_le hg (r := radius) (a := pos.x) (b := e.1.x)
          (by omega)
        omega
      · exact fdiv_sub_fdiv_le hg habs.2
    · have hy2 : (pos.y - e.1.y) * (pos.y - e.1.y) ≤ radius * radius := by
        have hx2 : 0 ≤ (pos.x - e.1.x) * (pos.x - e.1.x) := mul_self_nonneg _
        simp only [distSq] at hd
        nlinarith
      have habs : -radius ≤ e.1.y - pos.y ∧ e.1.y - pos.y ≤ radius := by
        constructor <;> nlinarith
      constructor
      · have := fdiv_sub_fdiv_le hg (r := radius) (a := pos.y) (b := e.1.y)
          (by omega)
        omega
      · exact fdiv_sub_fdiv_le hg habs.2

/-- C2: for every populated SpatialIndex with positive cell size and every
query with positive radius (also radii larger than the cell size), the query
returns exactly the inserted entries within Euclidean distance radius of the
query point — equal to the brute-force scan and independent of the cell
size. -/
theorem spatial_index_query_exact (g : Int) (hg : 0 < g)
    (entries : List ViaEntry) (q : Pos) (r : Int) (hr : 0 < r) (e : ViaEntry) :
    e ∈ (SpatialIndex.mk g entries).get_nearby_vias q r ↔
      e ∈ entries ∧ distSq q e.1 ≤ r * r := by
  rw [SpatialIndex.mem_get_nearby_vias hg]
  constructor
  · rintro ⟨h1, _, h3⟩
    exact ⟨h1, h3⟩
  · rintro ⟨h1, h3⟩
    exact ⟨h1, hr.le, h3⟩

/-- Witness for C2: a concrete index with cell size 2 queried at radius 3
(radius larger than the cell size). -/
theorem spatial_index_query_exact_witness :
    (0 : Int) < 2 ∧ (0 : Int) < 3 ∧
      ((⟨⟨0, 0⟩, 1⟩ : ViaEntry) ∈
          (SpatialIndex.mk 2 [⟨⟨0, 0⟩, 1⟩]).get_nearby_vias ⟨1, 1⟩ 3 ↔
        (⟨⟨0, 0⟩, 1⟩ : ViaEntry) ∈ ([⟨⟨0, 0⟩, 1⟩] : List ViaEntry) ∧
          distSq ⟨1, 1⟩ ⟨0, 0⟩ ≤ 3 * 3) :=
  ⟨by decide, by decide,
    spatial_index_query_exact 2 (by decide) [⟨⟨0, 0⟩, 1⟩] ⟨1, 1⟩ 3 (by decide) _⟩

/-- Counterexample to C7 as stated: with radius exactly 0 and an indexed via
at the query point, get_nearby_vias returns that via (distance 0 satisfies
the inclusive test), not an empty result. -/
theorem zero_radius_query_nonempty :
    (SpatialIndex.mk 10 [⟨⟨0, 0⟩, 7⟩]).get_nearby_vias ⟨0, 0⟩ 0 ≠ [] := by
  decide

/-- C7 amended: a query with negative radius returns an empty result (and no
error); a query with radius exactly 0 returns precisely the entries located
at the query point itself. -/
theorem nonpositive_radius_query (g : Int) (hg : 0 < g)
    (entries : List ViaEntry) (q : Pos) (r : Int) :
    (r < 0 → (SpatialIndex.mk g entries).get_nearby_vias q r = []) ∧
      (r = 0 → ∀ e : ViaEntry,
        e ∈ (SpatialIndex.mk g entries).get_nearby_vias q r ↔
          e ∈ entries ∧ e.1 = q) := by
  constructor
  · intro hr
    apply List.eq_nil_iff_forall_not_mem.mpr
    intro e he
    rw [SpatialIndex.mem_get_nearby_vias hg] at he
    exact absurd he.2.1 (by omega)
  · rintro rfl e
    rw [SpatialIndex.mem_get_nearby_vias hg]
    constructor
    · rintro ⟨h1, _, h3⟩
      refine ⟨h1, ?_⟩
      have hx := mul_self_nonneg (q.x - e.1.x)
      have hy := mul_self_nonneg (q.y - e.1.y)
      simp only [distSq] at h3
      have hx0 : q.x - e.1.x = 0 := by nlinarith
      have hy0 : q.y - e.1.y = 0 := by nlinarith
      ext
      · omega
      · omega
    · rintro ⟨h1, h2⟩
      refine ⟨h1, le_refl 0, ?_⟩
      rw [h2]
      simp [distSq]

/-- Witness for C7 amended: concrete index, negative and zero radii. -/
theorem nonpositive_radius_query_witness :
    (0 : Int) < 10 ∧
      ((-5 : Int) < 0 →
        (SpatialIndex.mk 10 [⟨⟨0, 0⟩, 7⟩]).get_nearby_vias ⟨0, 0⟩ (-5) = []) ∧
      ((0 : Int) = 0 → ∀ e : ViaEntry,
        e ∈ (SpatialIndex.mk 10 [⟨⟨0, 0⟩, 7⟩]).get_nearby_vias ⟨0, 0⟩ 0 ↔
          e ∈ ([⟨⟨0, 0⟩, 7⟩] : List ViaEntry) ∧ e.1 = ⟨0, 0⟩) :=
  ⟨by decide,
    fun _ => (nonpositive_radius_query 10 (by decide) [⟨⟨0, 0⟩, 7⟩] ⟨0, 0⟩ (-5)).1
      (by decide),
    fun _ => (nonpositive_radius_query 10 (by decide) [⟨⟨0, 0⟩, 7⟩] ⟨0, 0⟩ 0).2 rfl⟩

/-- Decides sqrt(dsq) <= twoR/2 exactly (dsq an integer squared distance,
twoR twice the source's float threshold): 0 <= twoR and 4*dsq <= twoR^2. -/
def sqrtScaledLe (dsq twoR : Int) : Bool :=
  decide (0 ≤ twoR ∧ 4 * dsq ≤ twoR * twoR)

/-- Decides sqrt(dsq) < twoM/2 exactly: 0 < twoM and 4*dsq < twoM^2. -/
def sqrtScaledLt (dsq twoM : Int) : Bool :=
  decide (0 < twoM ∧ 4 * dsq < twoM * twoM)

/-- Pad snapshot entry (PadSpatialIndex pad_info, lines 115-122 and 280-304).
size_max is max(pad_size.x, pad_size.y); the source's circle-approximation
radius is size_max/2, kept doubled here so all comparisons stay in ℤ. -/
structure PadInfo where
  center : Pos
  size_max : Int
  net_code : Int
deriving DecidableEq, Repr

/-- PadSpatialIndex (lines 105-144); like SpatialIndex, the bucket dict is
represented by the pad insertion list. -/
structure PadSpatialIndex where
  grid_size : Int
  pads : List PadInfo

/-- get_nearby_pads (lines 124-144): scans cells within
int(ceil(radius/grid_size)) + 1 of the query cell and keeps pads with
distance <= radius + pad_radius.  two_radius is twice the query radius; the
threshold radius + pad_radius doubles to two_radius + size_max. -/
def PadSpatialIndex.get_nearby_pads (idx : PadSpatialIndex) (pos : Pos)
    (two_radius : Int) : List PadInfo :=
  let g := idx.grid_size
  let gx := Int.fdiv pos.x g
  let gy := Int.fdiv pos.y g
  let gr := ceilDivInt two_radius (2 * g) + 1
  (intRange (-gr) gr).flatMap fun dx =>
    (intRange (-gr) gr).flatMap fun dy =>
      (idx.pads.filter fun p =>
        Int.fdiv p.center.x g == gx + dx && Int.fdiv p.center.y g == gy + dy).filter
        fun p => sqrtScaledLe (distSq pos p.center) (two_radius + p.size_max)

/-- Track snapshot entry (TrackSpatialIndex track_info, lines 180-189 and
306-330): identity (Python id(track)), endpoints, width, net code.  The
source's dict field name end is a Lean keyword and is rendered stop. -/
structure TrackInfo where
  track : Int
  start : Pos
  stop : Pos
  width : Int
  net_code : Int
deriving DecidableEq, Repr

/-- Cells a segment is registered in (_get_segment_grid_cells, lines
157-178): the inclusive cell range of the segment's bounding box. -/
def trackRegisteredIn (g : Int) (t : TrackInfo) (c : Int × Int) : Bool :=
  decide (Int.fdiv (min t.start.x t.stop.x) g ≤ c.1 ∧
    c.1 ≤ Int.fdiv (max t.start.x t.stop.x) g ∧
    Int.fdiv (min t.start.y t.stop.y) g ≤ c.2 ∧
    c.2 ≤ Int.fdiv (max t.start.y t.stop.y) g)

/-- De-duplication by track identity (the nearby_tracks set of id(track) in
get_nearby_tracks): keeps the first occurrence of each identity. -/
def dedupTracks : List TrackInfo → List Int → List TrackInfo
  | [], _ => []
  | t :: ts, seen =>
    if t.track ∈ seen then dedupTracks ts seen
    else t :: dedupTracks ts (t.track :: seen)

/-- TrackSpatialIndex (lines 147-212); add_track registers a track in every
cell of its bounding-box cell range, represented by the insertion list plus
trackRegisteredIn. -/
structure TrackSpatialIndex where
  grid_size : Int
  tracks : List TrackInfo

/-- get_nearby_tracks (lines 191-212): scans cells within
int(ceil(radius/grid_size)) + 1 of the query cell, gathering the tracks
registered there, de-duplicated by identity.  two_radius is twice the query
radius. -/
def TrackSpatialIndex.get_nearby_tracks (idx : TrackSpatialIndex) (pos : Pos)
    (two_radius : Int) : List TrackInfo :=
  let g := idx.grid_size
  let gx := Int.fdiv pos.x g
  let gy := Int.fdiv pos.y g
  let gr := ceilDivInt two_radius (2 * g) + 1
  dedupTracks
    ((intRange (-gr) gr).flatMap fun dx =>
      (intRange (-gr) gr).flatMap fun dy =>
        idx.tracks.filter fun t => trackRegisteredIn g t (gx + dx, gy + dy)) []

/-- point_to_segment_distance (lines 215-247), translated directly except
that the returned value is the square of the source's sqrt distance (the
projection parameter t is clamped to [0,1]; a zero-length segment reduces to
the point distance). -/
def point_to_segment_distance_sq (point seg_start seg_end : Pos) : ℚ :=
  let px : ℚ := point.x
  let py : ℚ := point.y
  let x1 : ℚ := seg_start.x
  let y1 : ℚ := seg_start.y
  let x2 : ℚ := seg_end.x
  let y2 : ℚ := seg_end.y
  let dx := x2 - x1
  let dy := y2 - y1
  let seg_len_sq := dx * dx + dy * dy
  if seg_len_sq = 0 then (px - x1) * (px - x1) + (py - y1) * (py - y1)
  else
    let t := max 0 (min 1 (((px - x1) * dx + (py - y1) * dy) / seg_len_sq))
    (px - (x1 + t * dx)) * (px - (x1 + t * dx)) +
      (py - (y1 + t * dy)) * (py - (y1 + t * dy))

/-- Decides point_to_segment_distance(point, s, e) < twoM/2 in exact integer
arithmetic.  With A := px-x1, B := py-y1, L := dx^2+dy^2, dot := A*dx+B*dy,
the clamped parameter max 0 (min 1 (dot/L)) is 0 when dot <= 0, 1 when
L <= dot, and dot/L otherwise; the corresponding squared distances are
A^2+B^2, (px-x2)^2+(py-y2)^2, and ((A*L-dot*dx)^2+(B*L-dot*dy)^2)/L^2.
Comparing against (twoM/2)^2 and clearing the positive denominators gives
the integer tests below; point_to_segment_lt_iff proves the equivalence with
the direct translation point_to_segment_distance_sq. -/
def point_to_segment_lt (point seg_start seg_end : Pos) (twoM : Int) : Bool :=
  let px := point.x
  let py := point.y
  let x1 := seg_start.x
  let y1 := seg_start.y
  let x2 := seg_end.x
  let y2 := seg_end.y
  let dx := x2 - x1
  let dy := y2 - y1
  let L := dx * dx + dy * dy
  if L = 0 then sqrtScaledLt ((px - x1) * (px - x1) + (py - y1) * (py - y1)) twoM
  else
    let A := px - x1
    let B := py - y1
    let dot := A * dx + B * dy
    if dot ≤ 0 then sqrtScaledLt (A * A + B * B) twoM
    else if L ≤ dot then
      sqrtScaledLt ((px - x2) * (px - x2) + (py - y2) * (py - y2)) twoM
    else
      decide (0 < twoM ∧
        4 * ((A * L - dot * dx) * (A * L - dot * dx) +
          (B * L - dot * dy) * (B * L - dot * dy)) < twoM * twoM * (L * L))

/-- Axis-aligned bounding box (pcbnew BOX2I): GetLeft/GetTop/GetRight/
GetBottom. -/
structure BBox where
  left : Int
  top : Int
  right : Int
  bottom : Int
deriving DecidableEq, Repr

/-- GetWidth of a pcbnew bounding box. -/
def BBox.width (b : BBox) : Int := b.right - b.left

/-- GetHeight of a pcbnew bounding box. -/
def BBox.height (b : BBox) : Int := b.bottom - b.top

/-- A keepout zone as consulted by is_point_in_keepout (lines 428-456):
either the zone's polygon outline (an external pcbnew SHAPE_POLY_SET whose
Contains test is modelled as an abstract predicate) or, when no outline is
available, its bounding box. -/
inductive KeepoutGeom where
  | poly (contains : Pos → Bool)
  | box (bbox : BBox)

/-- BoardGeometryChecker (lines 250-544): clearance parameters plus the
board snapshot (outline, keepout zones, pads, tracks).  via_size,
pad_clearance, track_clearance, via_clearance are the nanometre integers the
caller obtains with pcbnew.FromMM.  board_outline none models the source's
None (no usable Edge.Cuts geometry, lines 332-366); the outline's
bounding-box test is the only containment test the source performs. -/
structure BoardGeometryChecker where
  via_size : Int
  pad_clearance : Int
  track_clearance : Int
  via_clearance : Int
  board_outline : Option BBox
  keepout_zones : List KeepoutGeom
  pads : List PadInfo
  tracks : List TrackInfo

/-- The pad index built at construction: PadSpatialIndex(int(via_size*3)). -/
def BoardGeometryChecker.pad_index (c : BoardGeometryChecker) :
    PadSpatialIndex :=
  ⟨c.via_size * 3, c.pads⟩

/-- The track index built at construction:
TrackSpatialIndex(int(via_size*3)). -/
def BoardGeometryChecker.track_index (c : BoardGeometryChecker) :
    TrackSpatialIndex :=
  ⟨c.via_size * 3, c.tracks⟩

/-- is_point_in_board (lines 400-426): with no outline every point passes;
otherwise the point must lie inside the outline bounding box shrunk by
margin = via_radius = via_size/2 on all sides (comparisons doubled to stay
in ℤ). -/
def BoardGeometryChecker.is_point_in_board (c : BoardGeometryChecker)
    (point : Pos) : Bool :=
  match c.board_outline with
  | none => true
  | some bbox =>
    !(decide (2 * point.x < 2 * bbox.left + c.via_size ∨
      2 * point.x > 2 * bbox.right - c.via_size ∨
      2 * point.y < 2 * bbox.top + c.via_size ∨
      2 * point.y > 2 * bbox.bottom - c.via_size))

/-- is_point_in_keepout (lines 428-456): true iff some keepout zone contains
the point — by its polygon when available, else by its bounding box. -/
def BoardGeometryChecker.is_point_in_keepout (c : BoardGeometryChecker)
    (point : Pos) : Bool :=
  c.keepout_zones.any fun z =>
    match z with
    | .poly contains => contains point
    | .box b =>
      decide (b.left ≤ point.x ∧ point.x ≤ b.right ∧
        b.top ≤ point.y ∧ point.y ≤ b.bottom)

/-- is_point_on_pad (lines 458-483): query the pad index with radius
via_radius + pad_clearance, then reject when some returned pad is closer
than pad_radius + via_radius + pad_clearance.  All thresholds are doubled
(two_search = via_size + 2*pad_clearance, and the rejection threshold
doubles to size_max + via_size + 2*pad_clearance).  via_net_code is
accepted but unused: the source's same-net pad exemption is commented out. -/
def BoardGeometryChecker.is_point_on_pad (c : BoardGeometryChecker)
    (point : Pos) (via_net_code : Option Int) : Bool :=
  let two_search := c.via_size + 2 * c.pad_clearance
  (c.pad_index.get_nearby_pads point two_search).any fun p =>
    sqrtScaledLt (distSq point p.center)
      (p.size_max + c.via_size + 2 * c.pad_clearance)

/-- is_point_on_track (lines 485-519): query the track index with radius
via_radius + track_clearance + max_track_width (max_track_width = 1000000 nm
= 1 mm); skip tracks on the via's own net (when a net is given); reject when
the point-to-segment distance is below via_radius + width/2 +
track_clearance.  Doubled: two_search = via_size + 2*track_clearance +
2000000, threshold = via_size + width + 2*track_clearance. -/
def BoardGeometryChecker.is_point_on_track (c : BoardGeometryChecker)
    (point : Pos) (via_net_code : Option Int) : Bool :=
  let two_search := c.via_size + 2 * c.track_clearance + 2 * 1000000
  (c.track_index.get_nearby_tracks point two_search).any fun t =>
    decide (via_net_code ≠ some t.net_code) &&
      point_to_segment_lt point t.start t.stop
        (c.via_size + t.width + 2 * c.track_clearance)

/-- can_place_via (lines 521-544): the four checks in order — board outline,
keepout, pads, tracks — each guarded by its flag, stopping at the first
failure with its reason string; accepted candidates get reason OK. -/
def BoardGeometryChecker.can_place_via (c : BoardGeometryChecker)
    (point : Pos) (via_net_code : Option Int)
    (check_board check_keepout check_pads check_tracks : Bool) :
    Bool × String :=
  if check_board && !(c.is_point_in_board point) then (false, "基板外")
  else if check_keepout && c.is_point_in_keepout point then (false, "禁止領域内")
  else if check_pads && c.is_point_on_pad point via_net_code then
    (false, "パッド上")
  else if check_tracks && c.is_point_on_track point via_net_code then
    (false, "トラック上")
  else (true, "OK")

/-- A zone to fill: its bounding box and, when available, its polygon
outline (an external pcbnew Contains test, modelled abstractly); none models
the source's zone_outline = None fallback. -/
structure Zone where
  bbox : BBox
  outline : Option (Pos → Bool)

/-- is_point_in_zone_polygon (lines 1416-1445): with an outline, the point
must satisfy Contains and additionally lie inside the bounding box shrunk by
clearance; without one, only the shrunk bounding-box test applies. -/
def is_point_in_zone_polygon (point : Pos) (zone : Zone) (clearance : Int) :
    Bool :=
  match zone.outline with
  | some contains =>
    if contains point then
      decide (zone.bbox.left + clearance ≤ point.x ∧
        point.x ≤ zone.bbox.right - clearance ∧
        zone.bbox.top + clearance ≤ point.y ∧
        point.y ≤ zone.bbox.bottom - clearance)
    else false
  | none =>
    decide (zone.bbox.left + clearance ≤ point.x ∧
      point.x ≤ zone.bbox.right - clearance ∧
      zone.bbox.top + clearance ≤ point.y ∧
      point.y ≤ zone.bbox.bottom - clearance)

/-- One arithmetic while-loop (x := xStart; while x <= xEnd: yield x;
x += step), with structural fuel bounding the iteration count. -/
def stepRangeAux : Nat → Int → Int → Int → List Int
  | 0, _, _, _ => []
  | n + 1, x, xEnd, step =>
    if x ≤ xEnd then x :: stepRangeAux n (x + step) xEnd step else []

/-- The values taken by the grid loops.  For a positive step the loop runs
max(0, (xEnd - xStart)/step + 1) times, so this fuel is always enough. -/
def stepRange (xStart xEnd step : Int) : List Int :=
  stepRangeAux (((xEnd - xStart) / step).toNat + 1) xStart xEnd step

/-- Grid branch of calculate_candidate_positions (lines 1328-1350),
randomize=False path: x from left+edge_clearance+h_offset to
right-edge_clearance step h_spacing (outer), y likewise (inner), keeping the
points accepted by is_point_in_zone_polygon. -/
def grid_candidate_positions (zone : Zone)
    (h_spacing v_spacing h_offset v_offset edge_clearance : Int) : List Pos :=
  let x_start := zone.bbox.left + edge_clearance + h_offset
  let y_start := zone.bbox.top + edge_clearance + v_offset
  let x_end := zone.bbox.right - edge_clearance
  let y_end := zone.bbox.bottom - edge_clearance
  (stepRange x_start x_end h_spacing).flatMap fun x =>
    (stepRange y_start y_end v_spacing).filterMap fun y =>
      let pos : Pos := ⟨x, y⟩
      if is_point_in_zone_polygon pos zone edge_clearance then some pos
      else none

/-- Python int() truncation toward zero of a rational (pcbnew.VECTOR2I takes
int(x)). -/
def truncQ (q : ℚ) : Int := if q < 0 then -(Int.floor (-q)) else Int.floor q

/-- The 1D perimeter parameter of the boundary branch (lines 1352-1359):
num_vias = int(perimeter / h_spacing), and candidate i sits at
perimeter_pos = (i / num_vias) * perimeter. -/
def boundary_perimeter_pos (bbox : BBox) (h_spacing : Int) (i : Nat) : ℚ :=
  let perimeter : Int := 2 * (bbox.width + bbox.height)
  let num_vias : Int := Int.fdiv perimeter h_spacing
  (i : ℚ) / (num_vias : ℚ) * (perimeter : ℚ)

/-- The four-edge mapping of the boundary branch (lines 1361-1372): a
perimeter position is mapped to the top, right, bottom or left edge, inset
by edge_clearance on the cross axis. -/
def boundary_edge_point (bbox : BBox) (edge_clearance : Int) (ppos : ℚ) :
    ℚ × ℚ :=
  let w : ℚ := bbox.width
  let h : ℚ := bbox.height
  if ppos < w then ((bbox.left : ℚ) + ppos, (bbox.top : ℚ) + edge_clearance)
  else if ppos < w + h then
    ((bbox.right : ℚ) - edge_clearance, (bbox.top : ℚ) + (ppos - w))
  else if ppos < 2 * w + h then
    ((bbox.right : ℚ) - (ppos - w - h), (bbox.bottom : ℚ) - edge_clearance)
  else ((bbox.left : ℚ) + edge_clearance,
    (bbox.bottom : ℚ) - (ppos - 2 * w - h))

/-- The raw boundary candidates (before int() truncation and the zone
filter), randomize=False path: one point per i in range(num_vias). -/
def boundary_raw_positions (bbox : BBox) (h_spacing edge_clearance : Int) :
    List (ℚ × ℚ) :=
  let num_vias : Int := Int.fdiv (2 * (bbox.width + bbox.height)) h_spacing
  (List.range num_vias.toNat).map fun i =>
    boundary_edge_point bbox edge_clearance
      (boundary_perimeter_pos bbox h_spacing i)

/-- Boundary branch of calculate_candidate_positions (lines 1352-1386),
randomize=False: the raw points truncated to integers and filtered by
is_point_in_zone_polygon. -/
def boundary_candidate_positions (zone : Zone)
    (h_spacing edge_clearance : Int) : List Pos :=
  (boundary_raw_positions zone.bbox h_spacing edge_clearance).filterMap
    fun xy =>
      let pos : Pos := ⟨truncQ xy.1, truncQ xy.2⟩
      if is_point_in_zone_polygon pos zone edge_clearance then some pos
      else none

/-- The exact binary64 value of Python's math.pi. -/
def ratPi : ℚ := (884279719003555 : ℚ) / 281474976710656

/-- Outcome of running the spiral generator's control loop: normal
completion with the visited (theta, radius) states, a ZeroDivisionError from
theta += h_spacing / radius, or fuel exhaustion (the loop still running). -/
inductive SpiralResult where
  | ok (states : List (ℚ × ℚ))
  | divByZero
  | outOfFuel
deriving DecidableEq, Repr

/-- Control loop of the spiral branch (lines 1388-1412): while radius <=
max_radius the body computes a position from (theta, radius) — cos/sin and
the zone filter do not influence control and are not modelled — then steps
theta += h_spacing / radius (a ZeroDivisionError when radius = 0) and
radius := edge_clearance + h_spacing * theta / (2 * pi). -/
def spiralLoopAux (h_spacing edge_clearance max_radius : ℚ) :
    Nat → ℚ → ℚ → SpiralResult
  | 0, _, _ => .outOfFuel
  | fuel + 1, theta, radius =>
    if radius ≤ max_radius then
      if radius = 0 then .divByZero
      else
        let theta2 := theta + h_spacing / radius
        let radius2 := edge_clearance + h_spacing * theta2 / (2 * ratPi)
        match spiralLoopAux h_spacing edge_clearance max_radius fuel theta2
          radius2 with
        | .ok l => .ok ((theta, radius) :: l)
        | r => r
    else .ok []

/-- Spiral branch of calculate_candidate_positions run on a zone bounding
box: theta = 0, radius = edge_clearance, max_radius = min(width, height)/2. -/
def spiral_control_run (bbox : BBox) (h_spacing edge_clearance : Int)
    (fuel : Nat) : SpiralResult :=
  let max_radius : ℚ := ((min bbox.width bbox.height : Int) : ℚ) / 2
  spiralLoopAux (h_spacing : ℚ) (edge_clearance : ℚ) max_radius fuel 0
    (edge_clearance : ℚ)

/-- check_drc_fast (lines 1447-1462): a position is clear when the via index
returns nothing within min_distance = via_size + via_clearance. -/
def check_drc_fast (pos : Pos) (via_size via_clearance : Int)
    (spatial_index : SpatialIndex) : Bool :=
  (spatial_index.get_nearby_vias pos (via_size + via_clearance)).isEmpty

/-- The skip_reasons tally of fill_zones_with_vias_optimized (lines
1212-1218): counters for the four checker reasons plus via proximity. -/
structure SkipReasons where
  out_of_board : Nat
  keepout : Nat
  on_pad : Nat
  on_track : Nat
  via_near : Nat
deriving DecidableEq, Repr

/-- All-zero tally. -/
def SkipReasons.zero : SkipReasons := ⟨0, 0, 0, 0, 0⟩

/-- skip_reasons[reason] += 1 for a checker reason string (unknown reasons
are ignored, matching the `if reason in skip_reasons` guard). -/
def SkipReasons.bump (t : SkipReasons) (reason : String) : SkipReasons :=
  if reason = "基板外" then { t with out_of_board := t.out_of_board + 1 }
  else if reason = "禁止領域内" then { t with keepout := t.keepout + 1 }
  else if reason = "パッド上" then { t with on_pad := t.on_pad + 1 }
  else if reason = "トラック上" then { t with on_track := t.on_track + 1 }
  else t

/-- skip_reasons["VIA近接"] += 1. -/
def SkipReasons.bump_via (t : SkipReasons) : SkipReasons :=
  { t with via_near := t.via_near + 1 }

/-- The candidate-filtering loop of fill_zones_with_vias_optimized (lines
1220-1253), rendered as structural recursion over the candidate list: each
candidate runs the geometry checker, then check_drc_fast against the via
index; accepted candidates are appended to valid_positions.  The source
never mutates spatial_index inside this loop — the index argument is the
same for every candidate (new vias are only added to the index in the later
creation phase, lines 1277-1300, where nothing reads it afterwards). -/
def fill_filter (c : BoardGeometryChecker) (net_code : Option Int)
    (check_board check_keepout check_pads check_tracks : Bool)
    (spatial_index : SpatialIndex) : List Pos → List Pos × SkipReasons
  | [] => ([], SkipReasons.zero)
  | pos :: rest =>
    let res := c.can_place_via pos net_code check_board check_keepout
      check_pads check_tracks
    let r := fill_filter c net_code check_board check_keepout check_pads
      check_tracks spatial_index rest
    if res.1 then
      if check_drc_fast pos c.via_size c.via_clearance spatial_index then
        (pos :: r.1, r.2)
      else (r.1, r.2.bump_via)
    else (r.1, r.2.bump res.2)

/-- The filtering phase of fill_zones_with_vias_optimized (lines 1145-1253)
for pattern="grid", randomize=False: build the via index (cell size
int(via_size * 1.5) = (3*via_size)/2 rounded toward zero) from the
pre-existing vias, concatenate the grid candidates of all zones, and filter.
Returns (valid_positions, skip_reasons). -/
def fill_zones_with_vias_grid (c : BoardGeometryChecker) (zones : List Zone)
    (net_code : Option Int) (existing_vias : List ViaEntry)
    (h_spacing v_spacing h_offset v_offset edge_clearance : Int)
    (check_board check_keepout check_pads check_tracks : Bool) :
    List Pos × SkipReasons :=
  let spatial_index := existing_vias.foldl
    (fun idx e => idx.add_via e.1 e.2)
    ⟨Int.fdiv (3 * c.via_size) 2, []⟩
  let all_candidates := zones.flatMap fun z =>
    grid_candidate_positions z h_spacing v_spacing h_offset v_offset
      edge_clearance
  fill_filter c net_code check_board check_keepout check_pads check_tracks
    spatial_index all_candidates

/-- C3: can_place_via is conjunctive — with arbitrary flags a candidate is
accepted iff every enabled check passes, so disabling a flag removes exactly
that conjunct; and with all four flags enabled the reported reason is the
first failing check in the order outline, keepout, pads, traces (OK when
accepted). -/
theorem can_place_via_conjunctive (c : BoardGeometryChecker) (p : Pos)
    (vn : Option Int) (cb ck cp ct : Bool) :
    ((c.can_place_via p vn cb ck cp ct).1 = true ↔
      ((cb = true → c.is_point_in_board p = true) ∧
        (ck = true → c.is_point_in_keepout p = false) ∧
        (cp = true → c.is_point_on_pad p vn = false) ∧
        (ct = true → c.is_point_on_track p vn = false))) ∧
      ((c.is_point_in_board p = false →
          (c.can_place_via p vn true true true true).2 = "基板外") ∧
        (c.is_point_in_board p = true → c.is_point_in_keepout p = true →
          (c.can_place_via p vn true true true true).2 = "禁止領域内") ∧
        (c.is_point_in_board p = true → c.is_point_in_keepout p = false →
          c.is_point_on_pad p vn = true →
          (c.can_place_via p vn true true true true).2 = "パッド上") ∧
        (c.is_point_in_board p = true → c.is_point_in_keepout p = false →
          c.is_point_on_pad p vn = false → c.is_point_on_track p vn = true →
          (c.can_place_via p vn true true true true).2 = "トラック上") ∧
        ((c.can_place_via p vn true true true true).1 = true →
          (c.can_place_via p vn true true true true).2 = "OK")) := by
  cases hb : c.is_point_in_board p <;>
    cases hk : c.is_point_in_keepout p <;>
      cases hp : c.is_point_on_pad p vn <;>
        cases ht : c.is_point_on_track p vn <;>
          simp [BoardGeometryChecker.can_place_via, hb, hk, hp, ht] <;>
            cases cb <;> cases ck <;> cases cp <;> cases ct <;> simp

/-- An empty board snapshot used as a concrete witness fixture: default
via/clearance sizes (0.6 mm via, 0.2 mm pad and track clearance, 0.25 mm
via clearance, in nm), no outline, no keepouts, no pads, no tracks. -/
def trivialChecker : BoardGeometryChecker :=
  ⟨600000, 200000, 200000, 250000, none, [], [], []⟩

/-- Witness for C3: on the empty snapshot every check passes and the
candidate is accepted. -/
theorem can_place_via_conjunctive_witness :
    (trivialChecker.can_place_via ⟨0, 0⟩ (some 1) true true true true).1 =
      true :=
  ((can_place_via_conjunctive trivialChecker ⟨0, 0⟩ (some 1)
      true true true true).1).mpr
    ⟨fun _ => by decide, fun _ => by decide, fun _ => by decide,
      fun _ => by decide⟩

theorem flatMap_nil_fun (l : List Int) :
    (l.flatMap fun _ => ([] : List α)) = [] := by
  induction l with
  | nil => rfl
  | cons a l ih => simp only [List.flatMap_cons, ih, List.nil_append]

theorem get_nearby_vias_nil (g : Int) (pos : Pos) (r : Int) :
    (SpatialIndex.mk g []).get_nearby_vias pos r = [] := by
  simp only [SpatialIndex.get_nearby_vias, List.filter_nil]
  rw [show ∀ l : List Int, (l.flatMap fun _ =>
    (intRange (-(ceilDivInt r g)) (ceilDivInt r g)).flatMap fun _ =>
      ([] : List ViaEntry)) = [] from fun l => by
        rw [show ((intRange (-(ceilDivInt r g)) (ceilDivInt r g)).flatMap
          fun _ => ([] : List ViaEntry)) = [] from flatMap_nil_fun _]
        exact flatMap_nil_fun l]

theorem get_nearby_pads_nil (g : Int) (pos : Pos) (r : Int) :
    (PadSpatialIndex.mk g []).get_nearby_pads pos r = [] := by
  simp only [PadSpatialIndex.get_nearby_pads, List.filter_nil]
  rw [show ((intRange (-(ceilDivInt r (2 * g) + 1)) (ceilDivInt r (2 * g) + 1)).flatMap
    fun _ => (intRange (-(ceilDivInt r (2 * g) + 1)) (ceilDivInt r (2 * g) + 1)).flatMap
      fun _ => ([] : List PadInfo)) = [] from ?_]
  have h1 : ∀ l : List Int, (l.flatMap fun _ => ([] : List PadInfo)) = [] :=
    flatMap_nil_fun
  rw [show ((intRange (-(ceilDivInt r (2 * g) + 1)) (ceilDivInt r (2 * g) + 1)).flatMap
    fun _ => ([] : List PadInfo)) = [] from h1 _]
  exact h1 _

theorem get_nearby_tracks_nil (g : Int) (pos : Pos) (r : Int) :
    (TrackSpatialIndex.mk g []).get_nearby_tracks pos r = [] := by
  simp only [TrackSpatialIndex.get_nearby_tracks, List.filter_nil]
  have h1 : ∀ l : List Int, (l.flatMap fun _ => ([] : List TrackInfo)) = [] :=
    flatMap_nil_fun
  rw [show ((intRange (-(ceilDivInt r (2 * g) + 1)) (ceilDivInt r (2 * g) + 1)).flatMap
    fun _ => (intRange (-(ceilDivInt r (2 * g) + 1)) (ceilDivInt r (2 * g) + 1)).flatMap
      fun _ => ([] : List TrackInfo)) = [] from ?_]
  · rfl
  rw [show ((intRange (-(ceilDivInt r (2 * g) + 1)) (ceilDivInt r (2 * g) + 1)).flatMap
    fun _ => ([] : List TrackInfo)) = [] from h1 _]
  exact h1 _

/-- On a snapshot with no outline, keepouts, pads or tracks, every point is
accepted by the checker with reason OK, whatever the flags. -/
theorem can_place_via_empty (via_size pc tc vc : Int) (p : Pos)
    (vn : Option Int) (cb ck cp ct : Bool) :
    (BoardGeometryChecker.mk via_size pc tc vc none [] [] []).can_place_via
      p vn cb ck cp ct = (true, "OK") := by
  simp [BoardGeometryChecker.can_place_via,
    BoardGeometryChecker.is_point_in_board,
    BoardGeometryChecker.is_point_in_keepout,
    BoardGeometryChecker.is_point_on_pad,
    BoardGeometryChecker.is_point_on_track,
    BoardGeometryChecker.pad_index, BoardGeometryChecker.track_index,
    get_nearby_pads_nil, get_nearby_tracks_nil]

/-- With an empty via index the via-spacing check always passes. -/
theorem check_drc_fast_empty (pos : Pos) (vs vc g : Int) :
    check_drc_fast pos vs vc ⟨g, []⟩ = true := by
  simp [check_drc_fast, get_nearby_vias_nil]

/-- On the empty snapshot the filter accepts every candidate and counts no
rejections. -/
theorem fill_filter_empty (via_size pc tc vc : Int) (nc : Option Int)
    (cb ck cp ct : Bool) (g : Int) (cands : List Pos) :
    fill_filter (BoardGeometryChecker.mk via_size pc tc vc none [] [] [])
      nc cb ck cp ct ⟨g, []⟩ cands = (cands, SkipReasons.zero) := by
  induction cands with
  | nil => rfl
  | cons p rest ih =>
    simp [fill_filter, can_place_via_empty, check_drc_fast_empty, ih]

/-- The 10mm x 10mm square region of the end-to-end scenario (C5), as a
bounding-box-only zone. -/
def c5_zone : Zone := ⟨⟨0, 0, 10000000, 10000000⟩, none⟩

/-- The lattice the grid generator actually produces for C5's settings:
five coordinates per axis (0.5 mm to 8.5 mm step 2 mm), x outer, y inner. -/
def c5_lattice : List Pos :=
  [500000, 2500000, 4500000, 6500000, 8500000].flatMap fun x =>
    [500000, 2500000, 4500000, 6500000, 8500000].map fun y =>
      (⟨x, y⟩ : Pos)

/-- Counterexample to C5 as stated: with the claimed settings (10mm square,
2mm spacings, 0.5mm edge clearance, grid pattern, no obstacles, default via
parameters) the pipeline accepts 25 positions, not 4x4 = 16. -/
theorem grid_scenario_not_16 :
    (fill_zones_with_vias_grid
        ⟨600000, 200000, 200000, 250000, none, [], [], []⟩ [c5_zone]
        (some 1) [] 2000000 2000000 0 0 500000 true true true true).1.length
      = 25 ∧
    ¬((fill_zones_with_vias_grid
        ⟨600000, 200000, 200000, 250000, none, [], [], []⟩ [c5_zone]
        (some 1) [] 2000000 2000000 0 0 500000 true true true true).1.length
      = 16) := by
  constructor
  · decide
  · decide

/-- C5 amended: the scenario accepts exactly a 5-by-5 lattice — candidate x
and y run from edgeClearance to 10mm - edgeClearance inclusive in steps of
2mm, giving floor((10 - 2*0.5)/2) + 1 = 5 per axis — with zero rejections of
any kind, for every via size and clearance setting and any flag
combination. -/
theorem grid_scenario_5x5 (via_size pad_clearance track_clearance
    via_clearance : Int) (net_code : Option Int) (cb ck cp ct : Bool) :
    fill_zones_with_vias_grid
        ⟨via_size, pad_clearance, track_clearance, via_clearance,
          none, [], [], []⟩ [c5_zone]
        net_code [] 2000000 2000000 0 0 500000 cb ck cp ct =
      (c5_lattice, SkipReasons.zero) ∧ c5_lattice.length = 25 := by
  constructor
  · have hcand : ([c5_zone].flatMap fun z =>
        grid_candidate_positions z 2000000 2000000 0 0 500000) =
        c5_lattice := by decide
    simp only [fill_zones_with_vias_grid, List.foldl_nil]
    rw [hcand]
    exact fill_filter_empty via_size pad_clearance track_clearance
      via_clearance net_code cb ck cp ct _ c5_lattice
  · decide

/-- Building the via index by folding add_via over a list appends exactly
that list to the entries. -/
theorem foldl_add_via (l : List ViaEntry) (idx : SpatialIndex) :
    l.foldl (fun i e => i.add_via e.1 e.2) idx =
      ⟨idx.grid_size, idx.entries ++ l⟩ := by
  induction l generalizing idx with
  | nil => cases idx; simp
  | cons e l ih =>
    rw [List.foldl_cons, ih]
    cases idx
    simp [SpatialIndex.add_via]

/-- A position accepted by the filtering loop is one of the candidates and
passed the via-spacing check against the (never-updated) via index. -/
theorem mem_fill_filter_accepted (c : BoardGeometryChecker) (nc : Option Int)
    (cb ck cp ct : Bool) (idx : SpatialIndex) (cands : List Pos) (p : Pos)
    (hp : p ∈ (fill_filter c nc cb ck cp ct idx cands).1) :
    p ∈ cands ∧ check_drc_fast p c.via_size c.via_clearance idx = true := by
  induction cands with
  | nil => simp [fill_filter] at hp
  | cons q rest ih =>
    simp only [fill_filter] at hp
    cases hres : (c.can_place_via q nc cb ck cp ct).1 <;>
      cases hdrc : check_drc_fast q c.via_size c.via_clearance idx <;>
        simp only [hres, hdrc, if_true, if_false, Bool.false_eq_true,
          if_neg, List.mem_cons] at hp
    · obtain ⟨h1, h2⟩ := ih hp
      exact ⟨List.mem_cons_of_mem _ h1, h2⟩
    · obtain ⟨h1, h2⟩ := ih hp
      exact ⟨List.mem_cons_of_mem _ h1, h2⟩
    · obtain ⟨h1, h2⟩ := ih hp
      exact ⟨List.mem_cons_of_mem _ h1, h2⟩
    · rcases hp with rfl | hp
      · exact ⟨List.mem_cons_self _ _, hdrc⟩
      · obtain ⟨h1, h2⟩ := ih hp
        exact ⟨List.mem_cons_of_mem _ h1, h2⟩

/-- Counterexample to C1 as stated: on an obstacle-free board with grid
spacing 0.5 mm, via size 0.6 mm and via clearance 0.25 mm, the run accepts
two positions only 0.5 mm apart — closer than viaDiameter +
viaToViaClearance = 0.85 mm — because the filtering loop never inserts
accepted vias into the via index. -/
theorem via_spacing_pair_violation :
    ((⟨1000000, 1000000⟩ : Pos) ∈
        (fill_zones_with_vias_grid
          ⟨600000, 200000, 200000, 250000, none, [], [], []⟩
          [⟨⟨0, 0, 2600000, 2600000⟩, none⟩] (some 1) []
          500000 500000 0 0 1000000 true true true true).1) ∧
      ((⟨1000000, 1500000⟩ : Pos) ∈
        (fill_zones_with_vias_grid
          ⟨600000, 200000, 200000, 250000, none, [], [], []⟩
          [⟨⟨0, 0, 2600000, 2600000⟩, none⟩] (some 1) []
          500000 500000 0 0 1000000 true true true true).1) ∧
      distSq ⟨1000000, 1000000⟩ ⟨1000000, 1500000⟩ <
        (600000 + 250000) * (600000 + 250000) := by
  refine ⟨by decide, by decide, by decide⟩

/-- C1 amended: the filtering loop checks candidates only against the via
index built from the pre-existing vias (accepted vias are inserted into the
index only during the later via-creation phase, after every candidate has
been decided), so the guarantee that holds is: every accepted position is
strictly farther than viaDiameter + viaToViaClearance from every
pre-existing via; two vias accepted in the same run may violate that
distance. -/
theorem accepted_clear_of_existing_vias (c : BoardGeometryChecker)
    (zones : List Zone) (nc : Option Int) (existing : List ViaEntry)
    (hs vs ho vo ec : Int) (cb ck cp ct : Bool)
    (hvs : 0 < c.via_size) (hvc : 0 ≤ c.via_clearance)
    (p : Pos) (e : ViaEntry)
    (hp : p ∈ (fill_zones_with_vias_grid c zones nc existing hs vs ho vo ec
      cb ck cp ct).1)
    (he : e ∈ existing) :
    (c.via_size + c.via_clearance) * (c.via_size + c.via_clearance) <
      distSq p e.1 := by
  unfold fill_zones_with_vias_grid at hp
  rw [foldl_add_via] at hp
  simp only [List.nil_append] at hp
  obtain ⟨-, hdrc⟩ := mem_fill_filter_accepted _ _ _ _ _ _ _ _ _ hp
  rw [check_drc_fast, List.isEmpty_iff] at hdrc
  have hg : 0 < Int.fdiv (3 * c.via_size) 2 := by
    rw [Int.fdiv_eq_ediv _ (by omega)]
    have := (Int.le_ediv_iff_mul_le (by omega : (0 : Int) < 2)).mpr
      (by omega : 1 * 2 ≤ 3 * c.via_size)
    omega
  by_contra hle
  push_neg at hle
  have hmem : e ∈ (SpatialIndex.mk (Int.fdiv (3 * c.via_size) 2)
      existing).get_nearby_vias p (c.via_size + c.via_clearance) :=
    (SpatialIndex.mem_get_nearby_vias hg existing p _ e).mpr
      ⟨he, by omega, hle⟩
  rw [hdrc] at hmem
  exact absurd hmem (List.not_mem_nil _)

/-- Witness for C1 amended: a concrete run with one pre-existing via; the
accepted position at (1mm, 1mm) is more than 0.85 mm from it. -/
theorem accepted_clear_of_existing_vias_witness :
    (0 : Int) < 600000 ∧ (0 : Int) ≤ 250000 ∧
      (600000 + 250000) * (600000 + 250000) <
        distSq ⟨1000000, 1000000⟩ (⟨⟨0, 0⟩, 9⟩ : ViaEntry).1 :=
  ⟨by decide, by decide,
    accepted_clear_of_existing_vias
      ⟨600000, 200000, 200000, 250000, none, [], [], []⟩
      [⟨⟨0, 0, 4000000, 4000000⟩, none⟩] (some 1) [⟨⟨0, 0⟩, 9⟩]
      2000000 2000000 0 0 1000000 true true true true
      (by decide) (by decide) ⟨1000000, 1000000⟩ ⟨⟨0, 0⟩, 9⟩
      (by decide) (by decide)⟩

theorem dedupTracks_subset :
    ∀ (l : List TrackInfo) (seen : List Int) (t : TrackInfo),
      t ∈ dedupTracks l seen → t ∈ l := by
  intro l
  induction l with
  | nil => intro seen t h; simp [dedupTracks] at h
  | cons u us ih =>
    intro seen t h
    rw [dedupTracks] at h
    by_cases hu : u.track ∈ seen
    · rw [if_pos hu] at h
      exact List.mem_cons_of_mem _ (ih _ _ h)
    · rw [if_neg hu] at h
      rcases List.mem_cons.mp h with rfl | h2
      · exact List.mem_cons_self _ _
      · exact List.mem_cons_of_mem _ (ih _ _ h2)

theorem mem_dedupTracks_gen :
    ∀ (l : List TrackInfo) (seen : List Int) (t : TrackInfo),
      (∀ t1 ∈ l, ∀ t2 ∈ l, t1.track = t2.track → t1 = t2) →
      t ∈ l → t.track ∉ seen → t ∈ dedupTracks l seen := by
  intro l
  induction l with
  | nil => intro seen t _ h; simp at h
  | cons u us ih =>
    intro seen t hcoh ht hseen
    rw [dedupTracks]
    by_cases hu : u.track ∈ seen
    · rw [if_pos hu]
      rcases List.mem_cons.mp ht with rfl | ht2
      · exact absurd hu hseen
      · exact ih _ _ (fun a ha b hb =>
          hcoh a (List.mem_cons_of_mem _ ha) b (List.mem_cons_of_mem _ hb))
          ht2 hseen
    · rw [if_neg hu]
      rcases List.mem_cons.mp ht with rfl | ht2
      · exact List.mem_cons_self _ _
      · by_cases hte : t = u
        · subst hte; exact List.mem_cons_self _ _
        · refine List.mem_cons_of_mem _ (ih _ _ (fun a ha b hb =>
            hcoh a (List.mem_cons_of_mem _ ha) b (List.mem_cons_of_mem _ hb))
            ht2 ?_)
          intro hmem
          rcases List.mem_cons.mp hmem with h1 | h1
          · exact hte (hcoh t ht u (List.mem_cons_self _ _) h1)
          · exact hseen h1

/-- Membership in get_nearby_pads: the pad was inserted, its cell lies in
the scanned window, and it passed the inclusive distance test. -/
theorem mem_get_nearby_pads (g : Int) (pads : List PadInfo) (pos : Pos)
    (r : Int) (p : PadInfo) :
    p ∈ (PadSpatialIndex.mk g pads).get_nearby_pads pos r ↔
      p ∈ pads ∧
        (Int.fdiv pos.x g - (ceilDivInt r (2 * g) + 1) ≤
            Int.fdiv p.center.x g ∧
          Int.fdiv p.center.x g ≤
            Int.fdiv pos.x g + (ceilDivInt r (2 * g) + 1) ∧
          Int.fdiv pos.y g - (ceilDivInt r (2 * g) + 1) ≤
            Int.fdiv p.center.y g ∧
          Int.fdiv p.center.y g ≤
            Int.fdiv pos.y g + (ceilDivInt r (2 * g) + 1)) ∧
        sqrtScaledLe (distSq pos p.center) (r + p.size_max) = true := by
  simp only [PadSpatialIndex.get_nearby_pads, List.mem_flatMap,
    List.mem_filter, mem_intRange, Bool.and_eq_true, beq_iff_eq]
  constructor
  · rintro ⟨dx, hdx, dy, hdy, ⟨⟨hp, hx, hy⟩, hle⟩⟩
    refine ⟨hp, ⟨?_, ?_, ?_, ?_⟩, hle⟩ <;> omega
  · rintro ⟨hp, ⟨h1, h2, h3, h4⟩, hle⟩
    exact ⟨Int.fdiv p.center.x g - Int.fdiv pos.x g, by omega,
      Int.fdiv p.center.y g - Int.fdiv pos.y g, by omega,
      ⟨⟨hp, by omega, by omega⟩, hle⟩⟩

/-- Membership in get_nearby_tracks, assuming track identities determine the
stored infos (as Python id() does): the track was inserted and is registered
in some cell of the scanned window. -/
theorem mem_get_nearby_tracks (g : Int) (tracks : List TrackInfo) (pos : Pos)
    (r : Int)
    (hcoh : ∀ t1 ∈ tracks, ∀ t2 ∈ tracks, t1.track = t2.track → t1 = t2)
    (t : TrackInfo) :
    t ∈ (TrackSpatialIndex.mk g tracks).get_nearby_tracks pos r ↔
      t ∈ tracks ∧ ∃ cx cy : Int,
        (Int.fdiv pos.x g - (ceilDivInt r (2 * g) + 1) ≤ cx ∧
          cx ≤ Int.fdiv pos.x g + (ceilDivInt r (2 * g) + 1) ∧
          Int.fdiv pos.y g - (ceilDivInt r (2 * g) + 1) ≤ cy ∧
          cy ≤ Int.fdiv pos.y g + (ceilDivInt r (2 * g) + 1)) ∧
        trackRegisteredIn g t (cx, cy) = true := by
  have hmemL : ∀ u : TrackInfo,
      (u ∈ (intRange (-(ceilDivInt r (2 * g) + 1)) (ceilDivInt r (2 * g) + 1)).flatMap
        (fun dx =>
          (intRange (-(ceilDivInt r (2 * g) + 1)) (ceilDivInt r (2 * g) + 1)).flatMap
            fun dy => tracks.filter fun v => trackRegisteredIn g v
              (Int.fdiv pos.x g + dx, Int.fdiv pos.y g + dy))) ↔
      u ∈ tracks ∧ ∃ cx cy : Int,
        (Int.fdiv pos.x g - (ceilDivInt r (2 * g) + 1) ≤ cx ∧
          cx ≤ Int.fdiv pos.x g + (ceilDivInt r (2 * g) + 1) ∧
          Int.fdiv pos.y g - (ceilDivInt r (2 * g) + 1) ≤ cy ∧
          cy ≤ Int.fdiv pos.y g + (ceilDivInt r (2 * g) + 1)) ∧
        trackRegisteredIn g u (cx, cy) = true := by
    intro u
    simp only [List.mem_flatMap, List.mem_filter, mem_intRange]
    constructor
    · rintro ⟨dx, hdx, dy, hdy, hu, hreg⟩
      exact ⟨hu, Int.fdiv pos.x g + dx, Int.fdiv pos.y g + dy,
        ⟨by omega, by omega, by omega, by omega⟩, hreg⟩
    · rintro ⟨hu, cx, cy, ⟨h1, h2, h3, h4⟩, hreg⟩
      refine ⟨cx - Int.fdiv pos.x g, by omega, cy - Int.fdiv pos.y g,
        by omega, hu, ?_⟩
      have hx : Int.fdiv pos.x g + (cx - Int.fdiv pos.x g) = cx := by omega
      have hy : Int.fdiv pos.y g + (cy - Int.fdiv pos.y g) = cy := by omega
      rw [hx, hy]
      exact hreg
  rw [TrackSpatialIndex.get_nearby_tracks]
  constructor
  · intro h
    exact (hmemL t).mp (dedupTracks_subset _ _ _ h)
  · intro h
    refine mem_dedupTracks_gen _ _ _ ?_ ((hmemL t).mpr h) (by simp)
    intro t1 h1 t2 h2
    exact hcoh t1 ((hmemL t1).mp h1).1 t2 ((hmemL t2).mp h2).1

theorem sqrtScaledLt_to_le {d m : Int} (h : sqrtScaledLt d m = true) :
    sqrtScaledLe d m = true := by
  simp only [sqrtScaledLt, sqrtScaledLe, decide_eq_true_eq] at h ⊢
  omega

/-- C4 amended, track half setup: the scanned cell window of the track
query around a point (the query radius folds the hard-coded 1 mm
max_track_width allowance). -/
def track_window (c : BoardGeometryChecker) (point : Pos) (t : TrackInfo) :
    Prop :=
  ∃ cx cy : Int,
    (Int.fdiv point.x (c.via_size * 3) -
        (ceilDivInt (c.via_size + 2 * c.track_clearance + 2 * 1000000)
          (2 * (c.via_size * 3)) + 1) ≤ cx ∧
      cx ≤ Int.fdiv point.x (c.via_size * 3) +
        (ceilDivInt (c.via_size + 2 * c.track_clearance + 2 * 1000000)
          (2 * (c.via_size * 3)) + 1) ∧
      Int.fdiv point.y (c.via_size * 3) -
        (ceilDivInt (c.via_size + 2 * c.track_clearance + 2 * 1000000)
          (2 * (c.via_size * 3)) + 1) ≤ cy ∧
      cy ≤ Int.fdiv point.y (c.via_size * 3) +
        (ceilDivInt (c.via_size + 2 * c.track_clearance + 2 * 1000000)
          (2 * (c.via_size * 3)) + 1)) ∧
    trackRegisteredIn (c.via_size * 3) t (cx, cy) = true

/-- C4 amended, pad half setup: the pad's cell lies in the scanned window of
the pad query. -/
def pad_window (c : BoardGeometryChecker) (point : Pos) (p : PadInfo) :
    Prop :=
  Int.fdiv point.x (c.via_size * 3) -
      (ceilDivInt (c.via_size + 2 * c.pad_clearance)
        (2 * (c.via_size * 3)) + 1) ≤ Int.fdiv p.center.x (c.via_size * 3) ∧
    Int.fdiv p.center.x (c.via_size * 3) ≤ Int.fdiv point.x (c.via_size * 3) +
      (ceilDivInt (c.via_size + 2 * c.pad_clearance)
        (2 * (c.via_size * 3)) + 1) ∧
    Int.fdiv point.y (c.via_size * 3) -
      (ceilDivInt (c.via_size + 2 * c.pad_clearance)
        (2 * (c.via_size * 3)) + 1) ≤ Int.fdiv p.center.y (c.via_size * 3) ∧
    Int.fdiv p.center.y (c.via_size * 3) ≤ Int.fdiv point.y (c.via_size * 3) +
      (ceilDivInt (c.via_size + 2 * c.pad_clearance)
        (2 * (c.via_size * 3)) + 1)

/-- C4 amended: among the features the index queries reach, the trace check
rejects exactly the candidates within via_radius + width/2 + traceClearance
of a trace on a DIFFERENT net — a trace on the via's own net never causes
rejection — while the pad check applies no net exemption at all: it rejects
exactly the candidates within pad_radius + via_radius + padClearance of any
reached pad, regardless of net (the via-net argument vn is arbitrary).
Features registered outside the scanned window (possible for tracks wider
than the 1 mm allowance or pads larger than the search margin) are not
consulted. -/
theorem same_net_exemption_asymmetry (c : BoardGeometryChecker)
    (point : Pos) (n : Int) (vn : Option Int)
    (hcoh : ∀ t1 ∈ c.tracks, ∀ t2 ∈ c.tracks, t1.track = t2.track → t1 = t2) :
    (c.is_point_on_track point (some n) = true ↔
      ∃ t ∈ c.tracks, track_window c point t ∧ t.net_code ≠ n ∧
        point_to_segment_lt point t.start t.stop
          (c.via_size + t.width + 2 * c.track_clearance) = true) ∧
    (c.is_point_on_pad point vn = true ↔
      ∃ p ∈ c.pads, pad_window c point p ∧
        sqrtScaledLt (distSq point p.center)
          (p.size_max + c.via_size + 2 * c.pad_clearance) = true) := by
  constructor
  · simp only [BoardGeometryChecker.is_point_on_track,
      BoardGeometryChecker.track_index, List.any_eq_true, Bool.and_eq_true,
      decide_eq_true_eq]
    constructor
    · rintro ⟨t, htmem, hne, hlt⟩
      rw [mem_get_nearby_tracks _ _ _ _ hcoh] at htmem
      refine ⟨t, htmem.1, htmem.2, ?_, hlt⟩
      intro h
      exact hne (by rw [h])
    · rintro ⟨t, ht, hw, hne, hlt⟩
      refine ⟨t, ?_, ?_, hlt⟩
      · rw [mem_get_nearby_tracks _ _ _ _ hcoh]
        exact ⟨ht, hw⟩
      · intro h
        apply hne
        injection h with h2
        exact h2.symm
  · simp only [BoardGeometryChecker.is_point_on_pad,
      BoardGeometryChecker.pad_index, List.any_eq_true]
    constructor
    · rintro ⟨p, hpmem, hlt⟩
      rw [mem_get_nearby_pads] at hpmem
      exact ⟨p, hpmem.1, hpmem.2.1, hlt⟩
    · rintro ⟨p, hp, hw, hlt⟩
      refine ⟨p, ?_, hlt⟩
      rw [mem_get_nearby_pads]
      refine ⟨hp, hw, ?_⟩
      have hT : c.via_size + 2 * c.pad_clearance + p.size_max =
          p.size_max + c.via_size + 2 * c.pad_clearance := by ring
      rw [hT]
      exact sqrtScaledLt_to_le hlt

/-- An 8.8 mm-wide track on net 2, 5.4 mm from the origin: within the
required clearance of the origin, but registered only in cells outside the
track query's scanned window. -/
def wideTrack : TrackInfo :=
  ⟨1, ⟨5400000, -1000000⟩, ⟨5400000, 1000000⟩, 16000000, 2⟩

/-- Board snapshot holding only wideTrack (default 0.6 mm via and 0.2 mm
clearances). -/
def wideTrackChecker : BoardGeometryChecker :=
  ⟨600000, 200000, 200000, 250000, none, [], [], [wideTrack]⟩

/-- Counterexample to C4 as stated: the origin lies within via_radius +
width/2 + traceClearance of wideTrack, whose net (2) differs from the via
net (1), yet the trace check does not reject it — the track's cells fall
outside the scanned window — and can_place_via accepts the point. -/
theorem wide_track_within_clearance_not_rejected :
    wideTrackChecker.is_point_on_track ⟨0, 0⟩ (some 1) = false ∧
      wideTrack.net_code ≠ 1 ∧
      point_to_segment_lt ⟨0, 0⟩ wideTrack.start wideTrack.stop
        (wideTrackChecker.via_size + wideTrack.width +
          2 * wideTrackChecker.track_clearance) = true ∧
      (wideTrackChecker.can_place_via ⟨0, 0⟩ (some 1)
        true true true true).1 = true := by
  refine ⟨by decide, by decide, by decide, by decide⟩

/-- A 0.2 mm-wide track on net 2 passing 0.1 mm from the origin: reached by
the query and within clearance. -/
def nearTrack : TrackInfo :=
  ⟨1, ⟨100000, -1000000⟩, ⟨100000, 1000000⟩, 200000, 2⟩

/-- Board snapshot holding only nearTrack. -/
def nearTrackChecker : BoardGeometryChecker :=
  ⟨600000, 200000, 200000, 250000, none, [], [], [nearTrack]⟩

/-- Witness for C4 amended: the origin is rejected for the different-net
nearTrack, via the amended characterization. -/
theorem same_net_exemption_asymmetry_witness :
    nearTrackChecker.is_point_on_track ⟨0, 0⟩ (some 1) = true :=
  ((same_net_exemption_asymmetry nearTrackChecker ⟨0, 0⟩ 1 (some 1)
      (by decide)).1).mpr
    ⟨nearTrack, by decide, ⟨0, 0, ⟨by decide, by decide, by decide, by decide⟩,
      by decide⟩, by decide, by decide⟩

/-- Counterexample to C6 as stated: for the bounding box (0,0)-(3,2) with
hSpacing = 3 (perimeter 10, num_vias = 3), the raw point of index 1 sits at
perimeter position 10/3, not 1*hSpacing = 3: the generated point is
(3, 1/3) while the point at perimeter position 3 would be (3, 0). -/
theorem boundary_step_not_hspacing :
    boundary_perimeter_pos ⟨0, 0, 3, 2⟩ 3 1 ≠ (3 : ℚ) ∧
      (boundary_raw_positions ⟨0, 0, 3, 2⟩ 3 0).get? 1 =
        some (3, 1 / 3) ∧
      boundary_edge_point ⟨0, 0, 3, 2⟩ 0 ((1 : ℚ) * 3) ≠ (3, 1 / 3) := by
  refine ⟨?_, ?_, ?_⟩
  · simp only [boundary_perimeter_pos, BBox.width, BBox.height]
    norm_num [show Int.fdiv 10 3 = 3 from rfl]
  · simp only [boundary_raw_positions, boundary_perimeter_pos,
      boundary_edge_point, BBox.width, BBox.height,
      show Int.fdiv (2 * (3 - 0 + (2 - 0))) 3 = 3 from rfl]
    norm_num [List.get?_map, List.get?_range]
  · simp only [boundary_edge_point, BBox.width, BBox.height]
    norm_num

/-- C6 amended: with randomize off the boundary pattern steps the 1D
perimeter parameter in uniform increments of perimeter / num_vias where
num_vias = floor(perimeter / hSpacing) — an increment at least hSpacing, and
equal to hSpacing only when hSpacing divides the perimeter; the i-th raw
point is the four-edge mapping (inset by edgeClearance) of perimeter
position i * perimeter / num_vias. -/
theorem boundary_uniform_step (bbox : BBox) (h_spacing e : Int) (i : Nat)
    (hpos : 0 < h_spacing)
    (hle : h_spacing ≤ 2 * (bbox.width + bbox.height)) :
    (boundary_perimeter_pos bbox h_spacing (i + 1) -
        boundary_perimeter_pos bbox h_spacing i =
      ((2 * (bbox.width + bbox.height) : Int) : ℚ) /
        ((Int.fdiv (2 * (bbox.width + bbox.height)) h_spacing : Int) : ℚ)) ∧
      ((h_spacing : ℚ) ≤ ((2 * (bbox.width + bbox.height) : Int) : ℚ) /
        ((Int.fdiv (2 * (bbox.width + bbox.height)) h_spacing : Int) : ℚ)) ∧
      (i < (Int.fdiv (2 * (bbox.width + bbox.height)) h_spacing).toNat →
        (boundary_raw_positions bbox h_spacing e).get? i =
          some (boundary_edge_point bbox e
            (boundary_perimeter_pos bbox h_spacing i))) := by
  have hfd : Int.fdiv (2 * (bbox.width + bbox.height)) h_spacing =
      2 * (bbox.width + bbox.height) / h_spacing := Int.fdiv_eq_ediv _ hpos.le
  have hn1 : (1 : Int) ≤ 2 * (bbox.width + bbox.height) / h_spacing :=
    (Int.le_ediv_iff_mul_le hpos).mpr (by omega)
  refine ⟨?_, ?_, ?_⟩
  · simp only [boundary_perimeter_pos]
    have hn0 : ((Int.fdiv (2 * (bbox.width + bbox.height)) h_spacing : Int) :
        ℚ) ≠ 0 := by
      rw [hfd]
      exact_mod_cast by omega
    push_cast
    field_simp
    ring
  · have hnh : 2 * (bbox.width + bbox.height) / h_spacing * h_spacing ≤
        2 * (bbox.width + bbox.height) := Int.ediv_mul_le _ (by omega)
    rw [hfd, le_div_iff₀ (by exact_mod_cast hn1 : (0 : ℚ) < _)]
    have hmul : h_spacing * (2 * (bbox.width + bbox.height) / h_spacing) ≤
        2 * (bbox.width + bbox.height) := by
      rw [mul_comm]
      exact hnh
    exact_mod_cast hmul
  · intro hi
    simp only [boundary_raw_positions, List.get?_map, List.get?_range hi]
    rfl

/-- Witness for C6 amended: in the concrete (0,0)-(3,2) box with hSpacing 3
the raw point of index 1 is the edge mapping of its perimeter position. -/
theorem boundary_uniform_step_witness :
    (boundary_raw_positions ⟨0, 0, 3, 2⟩ 3 0).get? 1 =
      some (boundary_edge_point ⟨0, 0, 3, 2⟩ 0
        (boundary_perimeter_pos ⟨0, 0, 3, 2⟩ 3 1)) :=
  (boundary_uniform_step ⟨0, 0, 3, 2⟩ 3 0 1 (by decide) (by decide)).2.2
    (by decide)

/-- Squared distance from a point to the segment point a + t*(b - a). -/
def segment_param_dist_sq (point a b : Pos) (t : ℚ) : ℚ :=
  ((point.x : ℚ) - ((a.x : ℚ) + t * ((b.x : ℚ) - (a.x : ℚ)))) *
      ((point.x : ℚ) - ((a.x : ℚ) + t * ((b.x : ℚ) - (a.x : ℚ)))) +
    ((point.y : ℚ) - ((a.y : ℚ) + t * ((b.y : ℚ) - (a.y : ℚ)))) *
      ((point.y : ℚ) - ((a.y : ℚ) + t * ((b.y : ℚ) - (a.y : ℚ))))

/-- The clamped critical point of the convex quadratic t ↦ |w - t d|^2
minimizes it over [0,1]. -/
theorem clamp_quadratic_min (A B dx dy t : ℚ) (hL : 0 < dx * dx + dy * dy)
    (h0 : 0 ≤ t) (h1 : t ≤ 1) :
    (A - max 0 (min 1 ((A * dx + B * dy) / (dx * dx + dy * dy))) * dx) *
        (A - max 0 (min 1 ((A * dx + B * dy) / (dx * dx + dy * dy))) * dx) +
      (B - max 0 (min 1 ((A * dx + B * dy) / (dx * dx + dy * dy))) * dy) *
        (B - max 0 (min 1 ((A * dx + B * dy) / (dx * dx + dy * dy))) * dy) ≤
      (A - t * dx) * (A - t * dx) + (B - t * dy) * (B - t * dy) := by
  set L := dx * dx + dy * dy with hLdef
  set dot := A * dx + B * dy with hdotdef
  set c := dot / L with hcdef
  have hdot : dot = c * L := by
    rw [hcdef, div_mul_cancel₀]
    exact ne_of_gt hL
  rcases le_or_lt c 0 with hc | hc
  · have hu : max 0 (min 1 c) = 0 := by
      rw [min_eq_right (le_trans hc zero_le_one), max_eq_left hc]
    rw [hu]
    have key : (A - t * dx) * (A - t * dx) + (B - t * dy) * (B - t * dy) -
        ((A - 0 * dx) * (A - 0 * dx) + (B - 0 * dy) * (B - 0 * dy)) =
        t * t * L - 2 * t * dot := by
      rw [hLdef, hdotdef]
      ring
    have h2 : 0 ≤ t * t * L - 2 * t * dot := by
      rw [hdot]
      have h3 : t * t * L - 2 * t * (c * L) = t * L * (t - 2 * c) := by ring
      rw [h3]
      exact mul_nonneg (mul_nonneg h0 hL.le) (by linarith)
    linarith
  · rcases le_or_lt 1 c with hc1 | hc1
    · have hu : max 0 (min 1 c) = 1 := by
        rw [min_eq_left hc1, max_eq_right zero_le_one]
      rw [hu]
      have key : (A - t * dx) * (A - t * dx) + (B - t * dy) * (B - t * dy) -
          ((A - 1 * dx) * (A - 1 * dx) + (B - 1 * dy) * (B - 1 * dy)) =
          (t * t - 1) * L - 2 * (t - 1) * dot := by
        rw [hLdef, hdotdef]
        ring
      have h2 : 0 ≤ (t * t - 1) * L - 2 * (t - 1) * dot := by
        rw [hdot]
        have h3 : (t * t - 1) * L - 2 * (t - 1) * (c * L) =
            L * ((1 - t) * (2 * c - t - 1)) := by ring
        rw [h3]
        exact mul_nonneg hL.le (mul_nonneg (by linarith) (by linarith))
      linarith
    · have hu : max 0 (min 1 c) = c := by
        rw [min_eq_right hc1.le, max_eq_right hc.le]
      rw [hu]
      have key : (A - t * dx) * (A - t * dx) + (B - t * dy) * (B - t * dy) -
          ((A - c * dx) * (A - c * dx) + (B - c * dy) * (B - c * dy)) =
          (t * t - c * c) * L - 2 * (t - c) * dot := by
        rw [hLdef, hdotdef]
        ring
      have h2 : 0 ≤ (t * t - c * c) * L - 2 * (t - c) * dot := by
        rw [hdot]
        have h3 : (t * t - c * c) * L - 2 * (t - c) * (c * L) =
            L * ((t - c) * (t - c)) := by ring
        rw [h3]
        exact mul_nonneg hL.le (mul_self_nonneg _)
      linarith

/-- C8: point_to_segment_distance is a pure closest-point-on-segment
computation — its squared value is minimal over the parameter range
t ∈ [0,1] (the projection parameter is clamped there), a degenerate
zero-length segment reduces to the point-to-point distance, and the three
concrete fixtures give distances 3.0, 2.0 and 3.0 (the embedding returns
the square of the source's sqrt value: 9, 4 and 9). -/
theorem point_to_segment_distance_spec :
    (∀ (p a b : Pos) (t : ℚ), 0 ≤ t → t ≤ 1 →
      point_to_segment_distance_sq p a b ≤ segment_param_dist_sq p a b t) ∧
      (∀ p a : Pos, point_to_segment_distance_sq p a a =
        ((p.x : ℚ) - a.x) * ((p.x : ℚ) - a.x) +
          ((p.y : ℚ) - a.y) * ((p.y : ℚ) - a.y)) ∧
      point_to_segment_distance_sq ⟨5, 3⟩ ⟨0, 0⟩ ⟨10, 0⟩ = 9 ∧
      point_to_segment_distance_sq ⟨-2, 0⟩ ⟨0, 0⟩ ⟨10, 0⟩ = 4 ∧
      point_to_segment_distance_sq ⟨4, 7⟩ ⟨4, 4⟩ ⟨4, 4⟩ = 9 := by
  refine ⟨?_, ?_, ?_, ?_, ?_⟩
  · intro p a b t h0 h1
    by_cases hz : ((b.x : ℚ) - a.x) * ((b.x : ℚ) - a.x) +
        ((b.y : ℚ) - a.y) * ((b.y : ℚ) - a.y) = 0
    · have hdx : ((b.x : ℚ) - a.x) = 0 := by
        have h1 := mul_self_nonneg ((b.x : ℚ) - a.x)
        have h2 := mul_self_nonneg ((b.y : ℚ) - a.y)
        have h3 : ((b.x : ℚ) - a.x) * ((b.x : ℚ) - a.x) = 0 := by nlinarith
        exact mul_self_eq_zero.mp h3
      have hdy : ((b.y : ℚ) - a.y) = 0 := by
        have h1 := mul_self_nonneg ((b.x : ℚ) - a.x)
        have h2 := mul_self_nonneg ((b.y : ℚ) - a.y)
        have h3 : ((b.y : ℚ) - a.y) * ((b.y : ℚ) - a.y) = 0 := by nlinarith
        exact mul_self_eq_zero.mp h3
      simp only [point_to_segment_distance_sq, segment_param_dist_sq,
        if_pos hz, hdx, hdy]
      ring_nf
      exact le_refl _
    · have hL : 0 < ((b.x : ℚ) - a.x) * ((b.x : ℚ) - a.x) +
          ((b.y : ℚ) - a.y) * ((b.y : ℚ) - a.y) := by
        have hle : (0 : ℚ) ≤ ((b.x : ℚ) - a.x) * ((b.x : ℚ) - a.x) +
            ((b.y : ℚ) - a.y) * ((b.y : ℚ) - a.y) :=
          add_nonneg (mul_self_nonneg _) (mul_self_nonneg _)
        exact lt_of_le_of_ne hle (Ne.symm hz)
      have hgoal := clamp_quadratic_min ((p.x : ℚ) - a.x) ((p.y : ℚ) - a.y)
        ((b.x : ℚ) - a.x) ((b.y : ℚ) - a.y) t hL h0 h1
      simp only [point_to_segment_distance_sq, segment_param_dist_sq,
        if_neg hz]
      have e1 : ∀ u : ℚ,
          ((p.x : ℚ) - ((a.x : ℚ) + u * ((b.x : ℚ) - a.x))) *
              ((p.x : ℚ) - ((a.x : ℚ) + u * ((b.x : ℚ) - a.x))) +
            ((p.y : ℚ) - ((a.y : ℚ) + u * ((b.y : ℚ) - a.y))) *
              ((p.y : ℚ) - ((a.y : ℚ) + u * ((b.y : ℚ) - a.y))) =
          (((p.x : ℚ) - a.x) - u * ((b.x : ℚ) - a.x)) *
              (((p.x : ℚ) - a.x) - u * ((b.x : ℚ) - a.x)) +
            (((p.y : ℚ) - a.y) - u * ((b.y : ℚ) - a.y)) *
              (((p.y : ℚ) - a.y) - u * ((b.y : ℚ) - a.y)) := by
        intro u
        ring
      rw [e1, e1]
      exact hgoal
  · intro p a
    simp [point_to_segment_distance_sq]
  · rw [point_to_segment_distance_sq]
    push_cast
    norm_num
  · rw [point_to_segment_distance_sq]
    push_cast
    norm_num
  · rw [point_to_segment_distance_sq]
    push_cast
    norm_num

/-- Witness for C8: the fixture distance 3 (square 9) is indeed no larger
than the squared distance to the segment point at parameter 1/2. -/
theorem point_to_segment_distance_spec_witness :
    (0 : ℚ) ≤ 1 / 2 ∧ (1 / 2 : ℚ) ≤ 1 ∧
      point_to_segment_distance_sq ⟨5, 3⟩ ⟨0, 0⟩ ⟨10, 0⟩ ≤
        segment_param_dist_sq ⟨5, 3⟩ ⟨0, 0⟩ ⟨10, 0⟩ (1 / 2) :=
  ⟨by norm_num, by norm_num,
    point_to_segment_distance_spec.1 ⟨5, 3⟩ ⟨0, 0⟩ ⟨10, 0⟩ (1 / 2)
      (by norm_num) (by norm_num)⟩

/-- The v2 dialog's OK handler (via_stitcher_v2.py lines 982-1012): every
numeric field is parsed with float() and the dialog closes on success — no
check of positivity or drill < size is performed.  none models an input
float() rejects (the only way on_ok refuses to proceed). -/
def v2_dialog_on_ok (via_size drill_size h_spacing v_spacing h_offset
    v_offset edge_clearance pad_clearance track_clearance via_clearance :
    Option ℚ) : Bool :=
  via_size.isSome && drill_size.isSome && h_spacing.isSome &&
    v_spacing.isSome && h_offset.isSome && v_offset.isSome &&
    edge_clearance.isSome && pad_clearance.isSome &&
    track_clearance.isSome && via_clearance.isSome

/-- The improved dialog's OK handler (via_stitcher_improved.py lines
626-647): parse the three numeric fields, reject any non-positive value,
then reject drill >= size; only on success does the dialog close and the
placement code run. -/
def improved_dialog_on_ok (via_size_mm via_drill_mm via_spacing_mm :
    Option ℚ) : Bool :=
  match via_size_mm, via_drill_mm, via_spacing_mm with
  | some s, some d, some sp =>
    if s ≤ 0 ∨ d ≤ 0 ∨ sp ≤ 0 then false
    else if d ≥ s then false
    else true
  | _, _, _ => false

/-- Counterexample to C9 as stated: the v2 dialog accepts a negative via
diameter (with drill greater than the diameter as well) — its OK handler
only requires the fields to parse as numbers, so the pipeline is entered
with invalid settings. -/
theorem v2_accepts_invalid_settings :
    v2_dialog_on_ok (some (-1)) (some 2) (some 1) (some 1) (some 0) (some 0)
        (some (1 / 2)) (some (1 / 5)) (some (1 / 5)) (some (1 / 4)) =
      true ∧ ((-1 : ℚ) ≤ 0 ∧ (-1 : ℚ) ≤ 2) :=
  ⟨rfl, by norm_num⟩

/-- C9 amended: only the improved variant's dialog performs the caller-
facing validation — it proceeds iff all three fields parse and the values
satisfy 0 < size, 0 < drill, 0 < spacing and drill < size; the v2 variant's
dialog only requires the fields to parse as numbers and enters the pipeline
even with a non-positive diameter, drill >= diameter, or non-positive
spacing. -/
theorem improved_dialog_validates (s d sp : Option ℚ) :
    improved_dialog_on_ok s d sp = true ↔
      ∃ a b c2 : ℚ, s = some a ∧ d = some b ∧ sp = some c2 ∧
        0 < a ∧ 0 < b ∧ 0 < c2 ∧ b < a := by
  cases s with
  | none => simp [improved_dialog_on_ok]
  | some a =>
    cases d with
    | none => simp [improved_dialog_on_ok]
    | some b =>
      cases sp with
      | none => simp [improved_dialog_on_ok]
      | some c2 =>
        rw [improved_dialog_on_ok]
        constructor
        · intro h
          by_cases h1 : a ≤ 0 ∨ b ≤ 0 ∨ c2 ≤ 0
          · rw [if_pos h1] at h
            exact absurd h (by simp)
          · rw [if_neg h1] at h
            by_cases h2 : b ≥ a
            · rw [if_pos h2] at h
              exact absurd h (by simp)
            · push_neg at h1 h2
              exact ⟨a, b, c2, rfl, rfl, rfl, h1.1, h1.2.1, h1.2.2, h2⟩
        · rintro ⟨a2, b2, c3, ha, hb, hc, h1, h2, h3, h4⟩
          injection ha with ha
          injection hb with hb
          injection hc with hc
          subst ha; subst hb; subst hc
          rw [if_neg (by push_neg; exact ⟨h1, h2, h3⟩),
            if_neg (by push_neg; exact h4)]

/-- Witness for C9 amended: valid settings (size 2, drill 1, spacing 3)
pass the improved validation. -/
theorem improved_dialog_validates_witness :
    improved_dialog_on_ok (some 2) (some 1) (some 3) = true :=
  (improved_dialog_validates (some 2) (some 1) (some 3)).mpr
    ⟨2, 1, 3, rfl, rfl, rfl, by norm_num, by norm_num, by norm_num,
      by norm_num⟩

/-- With a positive step and a negative edge clearance the spiral control
loop never terminates: theta keeps decreasing and the radius stays below
edge_clearance < 0 <= max_radius, so every fuel bound is exhausted. -/
theorem spiralLoopAux_stuck_negative (h e maxR : ℚ) (hh : 0 < h)
    (he : e < 0) (hmax : 0 ≤ maxR) :
    ∀ (fuel : Nat) (theta radius : ℚ), theta ≤ 0 → radius ≤ e →
      spiralLoopAux h e maxR fuel theta radius = SpiralResult.outOfFuel := by
  intro fuel
  induction fuel with
  | zero => intro theta radius _ _; rfl
  | succ n ih =>
    intro theta radius htheta hradius
    rw [spiralLoopAux]
    rw [if_pos (by linarith : radius ≤ maxR)]
    rw [if_neg (by intro h0; rw [h0] at hradius; linarith : ¬radius = 0)]
    have hpi : (0 : ℚ) < ratPi := by norm_num [ratPi]
    have hth2 : theta + h / radius ≤ 0 := by
      have hdiv : h / radius < 0 :=
        div_neg_of_pos_of_neg hh (by linarith)
      linarith
    have hrad2 : e + h * (theta + h / radius) / (2 * ratPi) ≤ e := by
      have hm : h * (theta + h / radius) ≤ 0 :=
        mul_nonpos_of_nonneg_of_nonpos hh.le hth2
      have hd : h * (theta + h / radius) / (2 * ratPi) ≤ 0 :=
        div_nonpos_of_nonpos_of_nonneg hm (by positivity)
      linarith
    show (match spiralLoopAux h e maxR n (theta + h / radius)
        (e + h * (theta + h / radius) / (2 * ratPi)) with
      | SpiralResult.ok l => SpiralResult.ok ((theta, radius) :: l)
      | r => r) = SpiralResult.outOfFuel
    rw [ih _ _ hth2 hrad2]

/-- C10: the spiral branch divides hSpacing by the current radius at each
step with the radius initialized to edgeClearance, so (for a non-degenerate
bounding box and positive hSpacing) it is total only when edgeClearance > 0:
at edgeClearance = 0 the very first step raises ZeroDivisionError, and at
edgeClearance < 0 the loop never terminates. -/
theorem spiral_total_only_with_positive_clearance (bbox : BBox)
    (h_spacing edge_clearance : Int)
    (hbb : 0 < min bbox.width bbox.height) (hh : 0 < h_spacing) :
    (edge_clearance = 0 → ∀ fuel : Nat,
      spiral_control_run bbox h_spacing edge_clearance (fuel + 1) =
        SpiralResult.divByZero) ∧
      (edge_clearance < 0 → ∀ fuel : Nat,
        spiral_control_run bbox h_spacing edge_clearance fuel =
          SpiralResult.outOfFuel) := by
  have hmax : (0 : ℚ) ≤ ((min bbox.width bbox.height : Int) : ℚ) / 2 := by
    have h1 : (0 : Int) ≤ min bbox.width bbox.height := hbb.le
    have h2 : (0 : ℚ) ≤ ((min bbox.width bbox.height : Int) : ℚ) := by
      exact_mod_cast h1
    linarith
  constructor
  · intro he fuel
    subst he
    rw [spiral_control_run, spiralLoopAux]
    rw [if_pos (by simpa using hmax)]
    rw [if_pos (by simp)]
  · intro he fuel
    rw [spiral_control_run]
    exact spiralLoopAux_stuck_negative _ _ _ (by exact_mod_cast hh)
      (by exact_mod_cast he) hmax fuel 0 _ le_rfl
      (le_of_eq rfl)

/-- Witness for C10: a concrete 10x10 box with hSpacing 2 and zero edge
clearance errors on the first step. -/
theorem spiral_total_only_with_positive_clearance_witness :
    spiral_control_run ⟨0, 0, 10, 10⟩ 2 0 1 = SpiralResult.divByZero :=
  (spiral_total_only_with_positive_clearance ⟨0, 0, 10, 10⟩ 2 0
    (by decide) (by decide)).1 rfl 0

/-- Faithfulness of the integer comparator: point_to_segment_lt decides
exactly sqrt(point_to_segment_distance_sq) < k/2, i.e. 0 < k and
4 * distance^2 < k^2, tying the executable test used by is_point_on_track
to the direct rational translation of point_to_segment_distance. -/
theorem point_to_segment_lt_iff (p s e : Pos) (k : Int) :
    point_to_segment_lt p s e k = true ↔
      0 < (k : ℚ) ∧
        4 * point_to_segment_distance_sq p s e < (k : ℚ) * (k : ℚ) := by
  have hcmp : ∀ d : Int, (0 < k ∧ 4 * d < k * k) ↔
      (0 < (k : ℚ) ∧ 4 * (d : ℚ) < (k : ℚ) * (k : ℚ)) := by
    intro d
    constructor
    · rintro ⟨h1, h2⟩
      exact ⟨by exact_mod_cast h1, by exact_mod_cast h2⟩
    · rintro ⟨h1, h2⟩
      exact ⟨by exact_mod_cast h1, by exact_mod_cast h2⟩
  simp only [point_to_segment_lt, point_to_segment_distance_sq, sqrtScaledLt,
    decide_eq_true_eq]
  by_cases hz : (e.x - s.x) * (e.x - s.x) + (e.y - s.y) * (e.y - s.y) =
      (0 : Int)
  · have hzQ : ((e.x : ℚ) - (s.x : ℚ)) * ((e.x : ℚ) - (s.x : ℚ)) +
        ((e.y : ℚ) - (s.y : ℚ)) * ((e.y : ℚ) - (s.y : ℚ)) = 0 := by
      have : ((e.x : ℚ) - (s.x : ℚ)) * ((e.x : ℚ) - (s.x : ℚ)) +
          ((e.y : ℚ) - (s.y : ℚ)) * ((e.y : ℚ) - (s.y : ℚ)) =
          (((e.x - s.x) * (e.x - s.x) + (e.y - s.y) * (e.y - s.y) : Int) :
            ℚ) := by
        push_cast
        ring
      rw [this, hz]
      simp
    rw [if_pos hz, if_pos hzQ, decide_eq_true_eq]
    rw [hcmp ((p.x - s.x) * (p.x - s.x) + (p.y - s.y) * (p.y - s.y))]
    have hv : ((((p.x - s.x) * (p.x - s.x) + (p.y - s.y) * (p.y - s.y) :
        Int)) : ℚ) = ((p.x : ℚ) - (s.x : ℚ)) * ((p.x : ℚ) - (s.x : ℚ)) +
        ((p.y : ℚ) - (s.y : ℚ)) * ((p.y : ℚ) - (s.y : ℚ)) := by
      push_cast
      ring
    rw [hv]
  · have hzQ : ¬(((e.x : ℚ) - (s.x : ℚ)) * ((e.x : ℚ) - (s.x : ℚ)) +
        ((e.y : ℚ) - (s.y : ℚ)) * ((e.y : ℚ) - (s.y : ℚ)) = 0) := by
      intro h
      apply hz
      have : (((e.x - s.x) * (e.x - s.x) + (e.y - s.y) * (e.y - s.y) : Int) :
          ℚ) = 0 := by
        rw [← h]
        push_cast
        ring
      exact_mod_cast this
    have hLpos : (0 : Int) <
        (e.x - s.x) * (e.x - s.x) + (e.y - s.y) * (e.y - s.y) := by
      have h1 := mul_self_nonneg (e.x - s.x)
      have h2 := mul_self_nonneg (e.y - s.y)
      omega
    have hLQpos : (0 : ℚ) < ((e.x : ℚ) - (s.x : ℚ)) * ((e.x : ℚ) - (s.x : ℚ))
        + ((e.y : ℚ) - (s.y : ℚ)) * ((e.y : ℚ) - (s.y : ℚ)) := by
      have : (0 : ℚ) < (((e.x - s.x) * (e.x - s.x) +
          (e.y - s.y) * (e.y - s.y) : Int) : ℚ) := by
        exact_mod_cast hLpos
      calc (0 : ℚ) < (((e.x - s.x) * (e.x - s.x) +
          (e.y - s.y) * (e.y - s.y) : Int) : ℚ) := this
        _ = _ := by push_cast; ring
    have hdotQ : (((p.x - s.x) * (e.x - s.x) + (p.y - s.y) * (e.y - s.y) :
        Int) : ℚ) = ((p.x : ℚ) - (s.x : ℚ)) * ((e.x : ℚ) - (s.x : ℚ)) +
        ((p.y : ℚ) - (s.y : ℚ)) * ((e.y : ℚ) - (s.y : ℚ)) := by
      push_cast
      ring
    rw [if_neg hz, if_neg hzQ]
    by_cases hdot : (p.x - s.x) * (e.x - s.x) + (p.y - s.y) * (e.y - s.y) ≤
        (0 : Int)
    · have hcQ : (((p.x : ℚ) - (s.x : ℚ)) * ((e.x : ℚ) - (s.x : ℚ)) +
          ((p.y : ℚ) - (s.y : ℚ)) * ((e.y : ℚ) - (s.y : ℚ))) /
          (((e.x : ℚ) - (s.x : ℚ)) * ((e.x : ℚ) - (s.x : ℚ)) +
            ((e.y : ℚ) - (s.y : ℚ)) * ((e.y : ℚ) - (s.y : ℚ))) ≤ 0 := by
        apply div_nonpos_of_nonpos_of_nonneg _ hLQpos.le
        rw [← hdotQ]
        exact_mod_cast hdot
      have hu : max 0 (min 1 ((((p.x : ℚ) - (s.x : ℚ)) *
          ((e.x : ℚ) - (s.x : ℚ)) + ((p.y : ℚ) - (s.y : ℚ)) *
          ((e.y : ℚ) - (s.y : ℚ))) /
          (((e.x : ℚ) - (s.x : ℚ)) * ((e.x : ℚ) - (s.x : ℚ)) +
            ((e.y : ℚ) - (s.y : ℚ)) * ((e.y : ℚ) - (s.y : ℚ))))) = 0 := by
        rw [min_eq_right (le_trans hcQ zero_le_one), max_eq_left hcQ]
      rw [if_pos hdot, hu, decide_eq_true_eq]
      rw [hcmp ((p.x - s.x) * (p.x - s.x) + (p.y - s.y) * (p.y - s.y))]
      have hv : ((((p.x - s.x) * (p.x - s.x) + (p.y - s.y) * (p.y - s.y) :
          Int)) : ℚ) = ((p.x : ℚ) - ((s.x : ℚ) + 0 * ((e.x : ℚ) - (s.x : ℚ))))
          * ((p.x : ℚ) - ((s.x : ℚ) + 0 * ((e.x : ℚ) - (s.x : ℚ)))) +
          ((p.y : ℚ) - ((s.y : ℚ) + 0 * ((e.y : ℚ) - (s.y : ℚ)))) *
          ((p.y : ℚ) - ((s.y : ℚ) + 0 * ((e.y : ℚ) - (s.y : ℚ)))) := by
        push_cast
        ring
      rw [hv]
    · by_cases hdot2 : (e.x - s.x) * (e.x - s.x) + (e.y - s.y) * (e.y - s.y)
          ≤ (p.x - s.x) * (e.x - s.x) + (p.y - s.y) * (e.y - s.y)
      · have hcQ : (1 : ℚ) ≤ ((((p.x : ℚ) - (s.x : ℚ)) *
            ((e.x : ℚ) - (s.x : ℚ)) + ((p.y : ℚ) - (s.y : ℚ)) *
            ((e.y : ℚ) - (s.y : ℚ))) /
            (((e.x : ℚ) - (s.x : ℚ)) * ((e.x : ℚ) - (s.x : ℚ)) +
              ((e.y : ℚ) - (s.y : ℚ)) * ((e.y : ℚ) - (s.y : ℚ)))) := by
          rw [one_le_div hLQpos]
          calc ((e.x : ℚ) - (s.x : ℚ)) * ((e.x : ℚ) - (s.x : ℚ)) +
              ((e.y : ℚ) - (s.y : ℚ)) * ((e.y : ℚ) - (s.y : ℚ)) =
              (((e.x - s.x) * (e.x - s.x) + (e.y - s.y) * (e.y - s.y) : Int) :
                ℚ) := by push_cast; ring
            _ ≤ (((p.x - s.x) * (e.x - s.x) + (p.y - s.y) * (e.y - s.y) :
                Int) : ℚ) := by exact_mod_cast hdot2
            _ = _ := hdotQ
        have hu : max 0 (min 1 ((((p.x : ℚ) - (s.x : ℚ)) *
            ((e.x : ℚ) - (s.x : ℚ)) + ((p.y : ℚ) - (s.y : ℚ)) *
            ((e.y : ℚ) - (s.y : ℚ))) /
            (((e.x : ℚ) - (s.x : ℚ)) * ((e.x : ℚ) - (s.x : ℚ)) +
              ((e.y : ℚ) - (s.y : ℚ)) * ((e.y : ℚ) - (s.y : ℚ))))) = 1 := by
          rw [min_eq_left hcQ, max_eq_right zero_le_one]
        rw [if_neg hdot, if_pos hdot2, hu, decide_eq_true_eq]
        rw [hcmp ((p.x - e.x) * (p.x - e.x) + (p.y - e.y) * (p.y - e.y))]
        have hv : ((((p.x - e.x) * (p.x - e.x) + (p.y - e.y) * (p.y - e.y) :
            Int)) : ℚ) = ((p.x : ℚ) - ((s.x : ℚ) + 1 *
            ((e.x : ℚ) - (s.x : ℚ)))) * ((p.x : ℚ) - ((s.x : ℚ) + 1 *
            ((e.x : ℚ) - (s.x : ℚ)))) + ((p.y : ℚ) - ((s.y : ℚ) + 1 *
            ((e.y : ℚ) - (s.y : ℚ)))) * ((p.y : ℚ) - ((s.y : ℚ) + 1 *
            ((e.y : ℚ) - (s.y : ℚ)))) := by
          push_cast
          ring
        rw [hv]
      · push_neg at hdot hdot2
        have hc0 : (0 : ℚ) ≤ ((((p.x : ℚ) - (s.x : ℚ)) *
            ((e.x : ℚ) - (s.x : ℚ)) + ((p.y : ℚ) - (s.y : ℚ)) *
            ((e.y : ℚ) - (s.y : ℚ))) /
            (((e.x : ℚ) - (s.x : ℚ)) * ((e.x : ℚ) - (s.x : ℚ)) +
              ((e.y : ℚ) - (s.y : ℚ)) * ((e.y : ℚ) - (s.y : ℚ)))) := by
          apply div_nonneg _ hLQpos.le
          rw [← hdotQ]
          have : (0 : Int) ≤ (p.x - s.x) * (e.x - s.x) +
              (p.y - s.y) * (e.y - s.y) := hdot.le
          exact_mod_cast this
        have hc1 : ((((p.x : ℚ) - (s.x : ℚ)) * ((e.x : ℚ) - (s.x : ℚ)) +
            ((p.y : ℚ) - (s.y : ℚ)) * ((e.y : ℚ) - (s.y : ℚ))) /
            (((e.x : ℚ) - (s.x : ℚ)) * ((e.x : ℚ) - (s.x : ℚ)) +
              ((e.y : ℚ) - (s.y : ℚ)) * ((e.y : ℚ) - (s.y : ℚ)))) ≤ 1 := by
          rw [div_le_one hLQpos]
          calc ((p.x : ℚ) - (s.x : ℚ)) * ((e.x : ℚ) - (s.x : ℚ)) +
              ((p.y : ℚ) - (s.y : ℚ)) * ((e.y : ℚ) - (s.y : ℚ)) =
              (((p.x - s.x) * (e.x - s.x) + (p.y - s.y) * (e.y - s.y) :
                Int) : ℚ) := hdotQ.symm
            _ ≤ (((e.x - s.x) * (e.x - s.x) + (e.y - s.y) * (e.y - s.y) :
                Int) : ℚ) := by exact_mod_cast hdot2.le
            _ = _ := by push_cast; ring
        have hu : max 0 (min 1 ((((p.x : ℚ) - (s.x : ℚ)) *
            ((e.x : ℚ) - (s.x : ℚ)) + ((p.y : ℚ) - (s.y : ℚ)) *
            ((e.y : ℚ) - (s.y : ℚ))) /
            (((e.x : ℚ) - (s.x : ℚ)) * ((e.x : ℚ) - (s.x : ℚ)) +
              ((e.y : ℚ) - (s.y : ℚ)) * ((e.y : ℚ) - (s.y : ℚ))))) =
            (((p.x : ℚ) - (s.x : ℚ)) * ((e.x : ℚ) - (s.x : ℚ)) +
              ((p.y : ℚ) - (s.y : ℚ)) * ((e.y : ℚ) - (s.y : ℚ))) /
            (((e.x : ℚ) - (s.x : ℚ)) * ((e.x : ℚ) - (s.x : ℚ)) +
              ((e.y : ℚ) - (s.y : ℚ)) * ((e.y : ℚ) - (s.y : ℚ))) := by
          rw [min_eq_right hc1, max_eq_right hc0]
        rw [if_neg (by omega : ¬((p.x - s.x) * (e.x - s.x) +
            (p.y - s.y) * (e.y - s.y) ≤ (0 : Int))),
          if_neg (by omega : ¬((e.x - s.x) * (e.x - s.x) +
            (e.y - s.y) * (e.y - s.y) ≤
            (p.x - s.x) * (e.x - s.x) + (p.y - s.y) * (e.y - s.y))), hu,
          decide_eq_true_eq]
        set A := (p.x : ℚ) - (s.x : ℚ) with hA
        set B := (p.y : ℚ) - (s.y : ℚ) with hB
        set DX := (e.x : ℚ) - (s.x : ℚ) with hDX
        set DY := (e.y : ℚ) - (s.y : ℚ) with hDY
        have key : ((p.x : ℚ) - ((s.x : ℚ) + (A * DX + B * DY) /
            (DX * DX + DY * DY) * DX)) * ((p.x : ℚ) - ((s.x : ℚ) +
            (A * DX + B * DY) / (DX * DX + DY * DY) * DX)) +
            ((p.y : ℚ) - ((s.y : ℚ) + (A * DX + B * DY) /
            (DX * DX + DY * DY) * DY)) * ((p.y : ℚ) - ((s.y : ℚ) +
            (A * DX + B * DY) / (DX * DX + DY * DY) * DY)) =
            ((A * (DX * DX + DY * DY) - (A * DX + B * DY) * DX) *
              (A * (DX * DX + DY * DY) - (A * DX + B * DY) * DX) +
             (B * (DX * DX + DY * DY) - (A * DX + B * DY) * DY) *
              (B * (DX * DX + DY * DY) - (A * DX + B * DY) * DY)) /
            ((DX * DX + DY * DY) * (DX * DX + DY * DY)) := by
          have hAeq : (p.x : ℚ) - ((s.x : ℚ) + (A * DX + B * DY) /
              (DX * DX + DY * DY) * DX) = A - (A * DX + B * DY) /
              (DX * DX + DY * DY) * DX := by
            rw [hA]
            ring
          have hBeq : (p.y : ℚ) - ((s.y : ℚ) + (A * DX + B * DY) /
              (DX * DX + DY * DY) * DY) = B - (A * DX + B * DY) /
              (DX * DX + DY * DY) * DY := by
            rw [hB]
            ring
          rw [hAeq, hBeq]
          field_simp
        rw [key, ← mul_div_assoc,
          div_lt_iff₀ (by positivity : (0 : ℚ) <
            (DX * DX + DY * DY) * (DX * DX + DY * DY))]
        constructor
        · rintro ⟨h1, h2⟩
          refine ⟨by exact_mod_cast h1, ?_⟩
          calc 4 * ((A * (DX * DX + DY * DY) - (A * DX + B * DY) * DX) *
                (A * (DX * DX + DY * DY) - (A * DX + B * DY) * DX) +
               (B * (DX * DX + DY * DY) - (A * DX + B * DY) * DY) *
                (B * (DX * DX + DY * DY) - (A * DX + B * DY) * DY)) =
              ((4 * (((p.x - s.x) * ((e.x - s.x) * (e.x - s.x) +
                (e.y - s.y) * (e.y - s.y)) - ((p.x - s.x) * (e.x - s.x) +
                (p.y - s.y) * (e.y - s.y)) * (e.x - s.x)) *
                ((p.x - s.x) * ((e.x - s.x) * (e.x - s.x) +
                (e.y - s.y) * (e.y - s.y)) - ((p.x - s.x) * (e.x - s.x) +
                (p.y - s.y) * (e.y - s.y)) * (e.x - s.x)) +
                ((p.y - s.y) * ((e.x - s.x) * (e.x - s.x) +
                (e.y - s.y) * (e.y - s.y)) - ((p.x - s.x) * (e.x - s.x) +
                (p.y - s.y) * (e.y - s.y)) * (e.y - s.y)) *
                ((p.y - s.y) * ((e.x - s.x) * (e.x - s.x) +
                (e.y - s.y) * (e.y - s.y)) - ((p.x - s.x) * (e.x - s.x) +
                (p.y - s.y) * (e.y - s.y)) * (e.y - s.y))) : Int) : ℚ) := by
                rw [hA, hB, hDX, hDY]
                push_cast
                ring
            _ < ((k * k * (((e.x - s.x) * (e.x - s.x) +
                (e.y - s.y) * (e.y - s.y)) * ((e.x - s.x) * (e.x - s.x) +
                (e.y - s.y) * (e.y - s.y))) : Int) : ℚ) := by
                exact_mod_cast h2
            _ = (k : ℚ) * (k : ℚ) * ((DX * DX + DY * DY) *
                (DX * DX + DY * DY)) := by
                rw [hDX, hDY]
                push_cast
                ring
        · rintro ⟨h1, h2⟩
          refine ⟨by exact_mod_cast h1, ?_⟩
          have h3 : ((4 * (((p.x - s.x) * ((e.x - s.x) * (e.x - s.x) +
              (e.y - s.y) * (e.y - s.y)) - ((p.x - s.x) * (e.x - s.x) +
              (p.y - s.y) * (e.y - s.y)) * (e.x - s.x)) *
              ((p.x - s.x) * ((e.x - s.x) * (e.x - s.x) +
              (e.y - s.y) * (e.y - s.y)) - ((p.x - s.x) * (e.x - s.x) +
              (p.y - s.y) * (e.y - s.y)) * (e.x - s.x)) +
              ((p.y - s.y) * ((e.x - s.x) * (e.x - s.x) +
              (e.y - s.y) * (e.y - s.y)) - ((p.x - s.x) * (e.x - s.x) +
              (p.y - s.y) * (e.y - s.y)) * (e.y - s.y)) *
              ((p.y - s.y) * ((e.x - s.x) * (e.x - s.x) +
              (e.y - s.y) * (e.y - s.y)) - ((p.x - s.x) * (e.x - s.x) +
              (p.y - s.y) * (e.y - s.y)) * (e.y - s.y))) : Int) : ℚ) <
              ((k * k * (((e.x - s.x) * (e.x - s.x) +
              (e.y - s.y) * (e.y - s.y)) * ((e.x - s.x) * (e.x - s.x) +
              (e.y - s.y) * (e.y - s.y))) : Int) : ℚ) := by
            calc ((4 * (((p.x - s.x) * ((e.x - s.x) * (e.x - s.x) +
                (e.y - s.y) * (e.y - s.y)) - ((p.x - s.x) * (e.x - s.x) +
                (p.y - s.y) * (e.y - s.y)) * (e.x - s.x)) *
                ((p.x - s.x) * ((e.x - s.x) * (e.x - s.x) +
                (e.y - s.y) * (e.y - s.y)) - ((p.x - s.x) * (e.x - s.x) +
                (p.y - s.y) * (e.y - s.y)) * (e.x - s.x)) +
                ((p.y - s.y) * ((e.x - s.x) * (e.x - s.x) +
                (e.y - s.y) * (e.y - s.y)) - ((p.x - s.x) * (e.x - s.x) +
                (p.y - s.y) * (e.y - s.y)) * (e.y - s.y)) *
                ((p.y - s.y) * ((e.x - s.x) * (e.x - s.x) +
                (e.y - s.y) * (e.y - s.y)) - ((p.x - s.x) * (e.x - s.x) +
                (p.y - s.y) * (e.y - s.y)) * (e.y - s.y))) : Int) : ℚ) =
                4 * ((A * (DX * DX + DY * DY) - (A * DX + B * DY) * DX) *
                  (A * (DX * DX + DY * DY) - (A * DX + B * DY) * DX) +
                 (B * (DX * DX + DY * DY) - (A * DX + B * DY) * DY) *
                  (B * (DX * DX + DY * DY) - (A * DX + B * DY) * DY)) := by
                  rw [hA, hB, hDX, hDY]
                  push_cast
                  ring
              _ < (k : ℚ) * (k : ℚ) * ((DX * DX + DY * DY) *
                  (DX * DX + DY * DY)) := h2
              _ = ((k * k * (((e.x - s.x) * (e.x - s.x) +
                  (e.y - s.y) * (e.y - s.y)) * ((e.x - s.x) * (e.x - s.x) +
                  (e.y - s.y) * (e.y - s.y))) : Int) : ℚ) := by
                  rw [hDX, hDY]
                  push_cast
                  ring
          exact_mod_cast h3

end ViaStitcher
